import Mathlib

/-!
The dumbvm subsystem of OS/161 (`kern/arch/mips/vm/dumbvm.c`, built with `OPT_A3`)

A shallow embedding of the physical-frame allocator ("coremap"), the address-space
record and the TLB fault handler, followed by theorems about them.

Conventions of the embedding
* `paddr_t`, `vaddr_t`, `unsigned int`, `unsigned long` and `size_t` are 32-bit on the
  MIPS target; they are natural numbers here and every operation that can wrap is written
  with an explicit `% WORD`.
* The tag array is the memory at `PADDR_TO_KVADDR(start)` viewed as `int[]`.  It is a
  function `Nat → Int`: the C code indexes raw memory, so the word at an index `≥ size`
  exists (it is whatever the RAM holds after the array) and is not a tag.
* That function is the whole RAM from `start` on, one 32-bit word per index: the word at
  index `j` is the four bytes at `start + 4 * j`, and the page at `start + k * PAGE_SIZE` is
  the words `1024 * k, …, 1024 * k + 1023`.  `bzero` and `memmove` on a frame write those
  words, so a frame whose words have an index below `size` shares them with the tags.
  Whether there is RAM behind a word (a frame may lie past `end`) is not modelled.
* A `KASSERT` that fails is the outcome `panic`.
-/

namespace DumbVM

/-! ## Platform constants (headers outside `dumbvm.c`) -/

/-- Modelled from the spec: `PAGE_SIZE` is defined in the machine header `vm.h`, which is
not part of the sources; section 8 of the spec places consecutive pages `0x1000` apart. -/
def PAGE_SIZE : Nat := 4096

/-- Modelled from the spec: `PAGE_FRAME`, the mask of the page-number bits of a 32-bit
address (header `vm.h`, not part of the sources). -/
def PAGE_FRAME : Nat := 0xfffff000

/-- Modelled from the spec: base of the direct-mapped kernel segment used by
`PADDR_TO_KVADDR` (header `vm.h`, not part of the sources). -/
def MIPS_KSEG0 : Nat := 0x80000000

/-- Number of values of a 32-bit machine word. -/
def WORD : Nat := 4294967296

/-- Macro `PADDR_TO_KVADDR(paddr)` is `paddr + MIPS_KSEG0` in 32-bit arithmetic. -/
def PADDR_TO_KVADDR (paddr : Nat) : Nat := (paddr + MIPS_KSEG0) % WORD

/-- Macro `KVADDR_TO_PADDR(vaddr)` is `vaddr - MIPS_KSEG0` in 32-bit arithmetic. -/
def KVADDR_TO_PADDR (vaddr : Nat) : Nat := (vaddr + WORD - MIPS_KSEG0) % WORD

/-- Constant `DUMBVM_STACKPAGES`, the number of user stack pages. -/
def DUMBVM_STACKPAGES : Nat := 12

/-! ## Frame allocator state -/

/-- The file-scope variables `start`, `end`, `size`, `ok` of `dumbvm.c` together with the
memory at `PADDR_TO_KVADDR(start)` read as an `int` array (`tags`): the first `size` words
are the tags, the later ones are the rest of the RAM, the frames included. -/
structure CoreMap where
  start : Nat
  end_ : Nat
  size : Nat
  ok : Bool
  tags : Nat → Int

/-- Outcome of a kernel routine: it returns, it panics on a failed `KASSERT`, or it is
still looping when the step budget given to the model is used up. -/
inductive Run (α : Type) where
  | ret (a : α) : Run α
  | panic : Run α
  | spin : Run α

/-- The loop `for (i = 0; i < size; i++) tags[i] = 0;` of `vm_bootstrap`, counting the
remaining iterations in the first argument. -/
def zero_tags : Nat → Nat → (Nat → Int) → (Nat → Int)
  | 0, _, tags => tags
  | k + 1, i, tags => zero_tags k (i + 1) (Function.update tags i 0)

/-- Function `vm_bootstrap`: `ramlo` and `ramhi` are what `ram_getsize` reports, `mem` is the
content of the memory at `start` before the tag array is cleared. -/
def vm_bootstrap (ramlo ramhi : Nat) (mem : Nat → Int) : CoreMap :=
  let size := ((ramhi + WORD - ramlo) % WORD) / PAGE_SIZE
  { start := ramlo, end_ := ramhi, size := size, ok := true,
    tags := zero_tags size 0 mem }

/-- Result of the inner `while` of `cmap_stealmem`. -/
inductive Scan where
  | found : Scan
  | exit (temp : Nat) : Scan

/-- The inner loop `while (s + cnt < size && cur == 0)` of `cmap_stealmem`.  The first
argument bounds the iterations left; the loop stops by itself once `s + cnt = size`, so
`size - (s + cnt)` is exact.  `found` is the `return` inside the loop (`cnt == pages`),
`exit temp` is the loop ending with that value of `temp`. -/
def scan_run (tags : Nat → Int) (size pages s : Nat) : Nat → Nat → Nat → Int → Scan
  | 0, _, temp, _ => Scan.exit temp
  | k + 1, cnt, temp, cur =>
    if s + cnt < size ∧ cur = 0 then
      if cnt + 1 = pages then Scan.found
      else scan_run tags size pages s k (cnt + 1) (temp + 1) (tags (temp + 1))
    else Scan.exit temp

/-- The loop `for (i = 1; i <= pages; i++) { tags[temp] = (int) i; temp++; }`. -/
def mark_run (pages : Nat) : Nat → Nat → Nat → (Nat → Int) → (Nat → Int)
  | 0, _, _, tags => tags
  | k + 1, i, temp, tags =>
    if i ≤ pages then mark_run pages k (i + 1) (temp + 1) (Function.update tags temp (i : Int))
    else tags

/-- The outer loop `while (temp < size)` of `cmap_stealmem`; the first argument bounds the
iterations left (`temp` grows by at least one each time, so `size` is enough).  The result
is the new allocator state and the returned `paddr_t`. -/
def cmap_loop (st : CoreMap) (pages : Nat) : Nat → Nat → CoreMap × Nat
  | 0, _ => (st, 0)
  | k + 1, temp =>
    if temp < st.size then
      match scan_run st.tags st.size pages temp (st.size - temp) 0 temp (st.tags temp) with
      | Scan.found =>
        ({ st with tags := mark_run pages pages 1 temp st.tags },
          ((temp + 1) * PAGE_SIZE + st.start) % WORD)
      | Scan.exit t => cmap_loop st pages k (t + 1)
    else (st, 0)

/-- Function `cmap_stealmem(pages)` -/
def cmap_stealmem (st : CoreMap) (pages : Nat) : CoreMap × Nat :=
  cmap_loop st pages st.size 0

/-- Function `getppages(npages)` with `OPT_A3`: the tagged allocator once `ok` is set, otherwise
`ram_stealmem`, which lives in `ram.c` and is passed in. -/
def getppages (ram_stealmem : CoreMap → Nat → CoreMap × Nat) (st : CoreMap) (npages : Nat) :
    CoreMap × Nat :=
  if st.ok then cmap_stealmem st npages else ram_stealmem st npages

/-- Function `alloc_kpages(npages)` -/
def alloc_kpages (ram_stealmem : CoreMap → Nat → CoreMap × Nat) (st : CoreMap) (npages : Nat) :
    CoreMap × Nat :=
  let r := getppages ram_stealmem st npages
  if r.2 = 0 then (r.1, 0) else (r.1, PADDR_TO_KVADDR r.2)

/-- The loop `while (current != 1 && current != 0)` of `free_kpages`.  The C loop has no
bound of its own; the first argument is the step budget and `none` means it was used up. -/
def free_walk : Nat → (Nat → Int) → Nat → Int → Option (Nat → Int)
  | 0, _, _, _ => none
  | k + 1, tags, temp, current =>
    if current ≠ 1 ∧ current ≠ 0 then
      free_walk k (Function.update tags temp 0) (temp + 1)
        (Function.update tags temp 0 (temp + 1))
    else some tags

/-- Function `free_kpages(addr)` with `OPT_A3`, run with a step budget for its `while` loop. -/
def free_kpages (fuel : Nat) (st : CoreMap) (addr : Nat) : Run CoreMap :=
  let p_address := KVADDR_TO_PADDR addr
  let temp := (((p_address + WORD - st.start) % WORD) / PAGE_SIZE + WORD - 1) % WORD
  if temp < st.size then
    match free_walk fuel (Function.update st.tags temp 0) (temp + 1)
        (Function.update st.tags temp 0 (temp + 1)) with
    | some t => Run.ret { st with tags := t }
    | none => Run.spin
  else Run.panic

/-- Memory whose first words are the listed ones and every later word is `d`. -/
def words (l : List Int) (d : Int) : Nat → Int := fun i => l.getD i d

/-! ## Address spaces and the fault handler -/

/-- Modelled from the spec: the error numbers of `kern/errno.h` that `dumbvm.c` returns
(the header is not part of the sources).  A returned `int` is `none` for `0` and
`some e` for the error `e`; only that the numbers are non-zero and distinct is used. -/
inductive Errno where
  | EFAULT : Errno
  | EINVAL : Errno
  | ENOMEM : Errno
  | EUNIMP : Errno
  deriving DecidableEq

/-- Modelled from the spec: fault kind READ of `vm.h` (not part of the sources). -/
def VM_FAULT_READ : Int := 0

/-- Modelled from the spec: fault kind WRITE of `vm.h` (not part of the sources). -/
def VM_FAULT_WRITE : Int := 1

/-- Modelled from the spec: fault kind WRITE-TO-READONLY of `vm.h` (not part of the
sources). -/
def VM_FAULT_READONLY : Int := 2

/-- Modelled from the spec: number of TLB slots, `mips/tlb.h` (not part of the sources). -/
def NUM_TLB : Nat := 64

/-- Modelled from the spec: valid bit of the low word of a TLB entry, `mips/tlb.h`. -/
def TLBLO_VALID : Nat := 0x200

/-- Modelled from the spec: dirty (write-enable) bit of the low word of a TLB entry,
`mips/tlb.h`. -/
def TLBLO_DIRTY : Nat := 0x400

/-- Modelled from the spec: the fixed top of the user stack, `vm.h`. -/
def USERSTACK : Nat := 0x80000000

/-- Record `struct addrspace` as `dumbvm.c` uses it with `OPT_A3`.  A `paddr_t *` field is `none`
for `NULL` and otherwise the block `kmalloc` returned, one entry per `paddr_t`. -/
structure addrspace where
  as_vbase1 : Nat
  as_pbase1 : Option (List Nat)
  as_npages1 : Nat
  as_vbase2 : Nat
  as_pbase2 : Option (List Nat)
  as_npages2 : Nat
  as_stackpbase : Option (List Nat)
  loadelf : Bool
  deriving DecidableEq

/-- The TLB: slot index to the pair (`entryhi`, `entrylo`) that `tlb_read` returns. -/
abbrev TLB := Nat → Nat × Nat

/-- The scan `for (i = 0; i < NUM_TLB; i++)` of `vm_fault`: slots whose `entrylo` has
`TLBLO_VALID` are skipped, the first other slot is written with `tlb_write` and the
function returns.  `none` means the loop ended without writing. -/
def tlb_fill (tlb : TLB) (ehi elo : Nat) : Nat → Nat → Option TLB
  | 0, _ => none
  | k + 1, i =>
    if (tlb i).2 &&& TLBLO_VALID ≠ 0 then tlb_fill tlb ehi elo k (i + 1)
    else some (Function.update tlb i (ehi, elo))

/-- The `entrylo` word `vm_fault` builds: `paddr | TLBLO_DIRTY | TLBLO_VALID`, with
`elo &= ~TLBLO_DIRTY` when `seg && loadelf`. -/
def entry_lo (paddr : Nat) (seg loadelf : Bool) : Nat :=
  if seg && loadelf then (paddr ||| TLBLO_DIRTY ||| TLBLO_VALID) &&& (WORD - 1 - TLBLO_DIRTY)
  else paddr ||| TLBLO_DIRTY ||| TLBLO_VALID

/-- The `if … else if …` chain of `vm_fault` that classifies the (page-masked) fault
address: the result is `seg`, the frame table of the region and the region base, or `none`
for the final `else`. -/
def fault_region (as : addrspace) (faultaddress : Nat) :
    Option (Bool × Option (List Nat) × Nat) :=
  let vbase1 := as.as_vbase1
  let vtop1 := (vbase1 + as.as_npages1 * PAGE_SIZE) % WORD
  let vbase2 := as.as_vbase2
  let vtop2 := (vbase2 + as.as_npages2 * PAGE_SIZE) % WORD
  let stackbase := USERSTACK - DUMBVM_STACKPAGES * PAGE_SIZE
  let stacktop := USERSTACK
  if faultaddress < vtop1 ∧ faultaddress ≥ vbase1 then some (true, as.as_pbase1, vbase1)
  else if faultaddress < stacktop ∧ faultaddress ≥ stackbase then
    some (false, as.as_stackpbase, stackbase)
  else if faultaddress < vtop2 ∧ faultaddress ≥ vbase2 then some (false, as.as_pbase2, vbase2)
  else none

/-- Function `vm_fault(faulttype, faultaddress)` with `OPT_A3`.  `curproc` is `none` when there is
no current process and `some none` when the process has no address space; `random` is the
slot the hardware picks for `tlb_random`.  The result is the returned code and the TLB;
`panic` is a failed `KASSERT` or the dereference of a `NULL` or empty frame table. -/
def vm_fault (faulttype : Int) (faultaddress : Nat) (curproc : Option (Option addrspace))
    (tlb : TLB) (random : Nat) : Run (Option Errno × TLB) :=
  let faultaddress := faultaddress &&& PAGE_FRAME
  if faulttype = VM_FAULT_READONLY then Run.ret (some Errno.EFAULT, tlb)
  else if faulttype = VM_FAULT_READ ∨ faulttype = VM_FAULT_WRITE then
    match curproc with
    | none => Run.ret (some Errno.EFAULT, tlb)
    | some none => Run.ret (some Errno.EFAULT, tlb)
    | some (some as) =>
      if as.as_vbase1 ≠ 0 ∧ as.as_pbase1 ≠ none ∧ as.as_npages1 ≠ 0 ∧
          as.as_vbase2 ≠ 0 ∧ as.as_pbase2 ≠ none ∧ as.as_npages2 ≠ 0 ∧
          as.as_stackpbase ≠ none ∧
          as.as_vbase1 &&& PAGE_FRAME = as.as_vbase1 ∧
          as.as_vbase2 &&& PAGE_FRAME = as.as_vbase2 then
        match fault_region as faultaddress with
        | none => Run.ret (some Errno.EFAULT, tlb)
        | some (seg, table, base) =>
          match table.bind (fun l => l[0]?) with
          | none => Run.panic
          | some first =>
            let paddr := (faultaddress - base + first) % WORD
            if paddr &&& PAGE_FRAME = paddr then
              let elo := entry_lo paddr seg as.loadelf
              match tlb_fill tlb faultaddress elo NUM_TLB 0 with
              | some t => Run.ret (none, t)
              | none => Run.ret (none, Function.update tlb random (faultaddress, elo))
            else Run.panic
      else Run.panic
  else Run.ret (some Errno.EINVAL, tlb)

/-- Function `as_create`: the seven fields it assigns are zero.  `kmalloc` does not clear the
block, so `loadelf`, which `as_create` leaves alone, is whatever the block held. -/
def as_create (loadelf : Bool) : addrspace :=
  { as_vbase1 := 0, as_pbase1 := none, as_npages1 := 0,
    as_vbase2 := 0, as_pbase2 := none, as_npages2 := 0,
    as_stackpbase := none, loadelf := loadelf }

/-- Function `as_define_region(as, vaddr, sz, …)`.  `kmalloc n` is the block returned for `n`
entries of `paddr_t` (`none` for `NULL`); the three permission flags are ignored by the
code and left out. -/
def as_define_region (kmalloc : Nat → Option (List Nat)) (as : addrspace) (vaddr sz : Nat) :
    addrspace × Option Errno :=
  let sz := (sz + (vaddr &&& (WORD - 1 - PAGE_FRAME))) % WORD
  let vaddr := vaddr &&& PAGE_FRAME
  let sz := ((sz + PAGE_SIZE - 1) % WORD) &&& PAGE_FRAME
  let npages := sz / PAGE_SIZE
  if as.as_vbase1 = 0 then
    ({ as with as_pbase1 := kmalloc npages, as_vbase1 := vaddr, as_npages1 := npages }, none)
  else if as.as_vbase2 = 0 then
    ({ as with as_pbase2 := kmalloc npages, as_vbase2 := vaddr, as_npages2 := npages }, none)
  else (as, some Errno.EUNIMP)

/-- Index, in the `int` array at `PADDR_TO_KVADDR(start)`, of the word stored at the physical
address `paddr`: `(paddr - start) / 4` in 32-bit arithmetic (`sizeof(int)` is 4).  Any
address that differs from `start` by a multiple of 4, every page address handed out by
`cmap_stealmem` among them, is the address of exactly that word; an address that does not
is rounded down to the word that holds it. -/
def word_index (start paddr : Nat) : Nat := ((paddr + WORD - start) % WORD) / 4

/-- Function `as_zero_region(paddr, npages)`: `bzero` of `npages * PAGE_SIZE` bytes (a 32-bit
product) at `PADDR_TO_KVADDR(paddr)`, that is of a fourth as many words of the RAM from the
word of `paddr` on.  The words are those of `CoreMap.tags`; the ones with an index below
`size` are tags. -/
def as_zero_region (cm : CoreMap) (paddr npages : Nat) : CoreMap :=
  { cm with
    tags := fun j =>
      if word_index cm.start paddr ≤ j ∧
          j < word_index cm.start paddr + (npages * PAGE_SIZE) % WORD / 4
      then 0 else cm.tags j }

/-- One of the three loops of `as_prepare_load`: for each of the `k` remaining indices
`i`, `getppages(1)`, `return ENOMEM` on `0`, else store the address in the table and zero
the frame.  A store through `NULL` or past the block is `panic`. -/
def load_loop (ram_stealmem : CoreMap → Nat → CoreMap × Nat) :
    Nat → Nat → CoreMap → Option (List Nat) → Run (Option Errno × CoreMap × Option (List Nat))
  | 0, _, cm, table => Run.ret (none, cm, table)
  | k + 1, i, cm, table =>
    let r := getppages ram_stealmem cm 1
    if r.2 = 0 then Run.ret (some Errno.ENOMEM, r.1, table)
    else
      match table with
      | none => Run.panic
      | some l =>
        if i < l.length then
          load_loop ram_stealmem k (i + 1) (as_zero_region r.1 r.2 1) (some (l.set i r.2))
        else Run.panic

/-- Function `as_prepare_load(as)` with `OPT_A3`; the result is the returned code, the allocator
(its variables and the RAM) and the address space. -/
def as_prepare_load (ram_stealmem : CoreMap → Nat → CoreMap × Nat)
    (kmalloc : Nat → Option (List Nat)) (cm : CoreMap) (as : addrspace) :
    Run (Option Errno × CoreMap × addrspace) :=
  match load_loop ram_stealmem as.as_npages1 0 cm as.as_pbase1 with
  | Run.panic => Run.panic
  | Run.spin => Run.spin
  | Run.ret (some e, cm1, t1) => Run.ret (some e, cm1, { as with as_pbase1 := t1 })
  | Run.ret (none, cm1, t1) =>
    match load_loop ram_stealmem as.as_npages2 0 cm1 as.as_pbase2 with
    | Run.panic => Run.panic
    | Run.spin => Run.spin
    | Run.ret (some e, cm2, t2) =>
      Run.ret (some e, cm2, { as with as_pbase1 := t1, as_pbase2 := t2 })
    | Run.ret (none, cm2, t2) =>
      match kmalloc DUMBVM_STACKPAGES with
      | none =>
        Run.ret (some Errno.ENOMEM, cm2,
          { as with as_pbase1 := t1, as_pbase2 := t2, as_stackpbase := none })
      | some blk =>
        match load_loop ram_stealmem DUMBVM_STACKPAGES 0 cm2 (some blk) with
        | Run.panic => Run.panic
        | Run.spin => Run.spin
        | Run.ret (e, cm3, t3) =>
          Run.ret (e, cm3, { as with as_pbase1 := t1, as_pbase2 := t2, as_stackpbase := t3 })

/-- Function `as_complete_load` -/
def as_complete_load (_as : addrspace) : Option Errno := none

/-- Function `as_define_stack`: the returned code and `*stackptr`; `panic` is the `KASSERT`. -/
def as_define_stack (as : addrspace) : Run (Option Errno × Nat) :=
  if as.as_stackpbase ≠ none then Run.ret (none, USERSTACK) else Run.panic

/-- A `kmalloc` that always succeeds and hands out blocks filled with `junk`. -/
def heap (junk : Nat) : Nat → Option (List Nat) := fun n => some (List.replicate n junk)

/-- Twenty frames of RAM at `0x40000`, right after `vm_bootstrap`. -/
def boot20 : CoreMap := vm_bootstrap 0x40000 0x54000 (fun _ => 0)

/-- An address space with a 2-page Segment 1 at `0x400000` and a 1-page Segment 2 at
`0x500000`, built with `as_create` and `as_define_region`. -/
def demo_as (loadelf : Bool) : addrspace :=
  (as_define_region (heap 0)
    (as_define_region (heap 0) (as_create loadelf) 0x400000 0x2000).1 0x500000 0x1000).1

/-- A TLB in which every slot is invalid (`entrylo = 0`). -/
def empty_tlb : TLB := fun _ => (0, 0)

/-- A TLB in which every slot is valid. -/
def full_tlb : TLB := fun i => (i * PAGE_SIZE, TLBLO_VALID)

/-! ## Teardown, copy and activation -/

/-- One of the three loops of `as_destroy`: for each of the `k` remaining indices `i`,
`free_kpages(PADDR_TO_KVADDR(table[i]))`.  Every call of `free_kpages` gets the step budget
`fuel`.  A read through `NULL` or past the block is `panic`. -/
def destroy_loop (fuel : Nat) : Nat → Nat → CoreMap → Option (List Nat) → Run CoreMap
  | 0, _, cm, _ => Run.ret cm
  | k + 1, i, cm, table =>
    match table.bind (fun l => l[i]?) with
    | none => Run.panic
    | some p =>
      match free_kpages fuel cm (PADDR_TO_KVADDR p) with
      | Run.ret cm' => destroy_loop fuel k (i + 1) cm' table
      | Run.panic => Run.panic
      | Run.spin => Run.spin

/-- Function `as_destroy(as)` with `OPT_A3`: the three loops over Segment 1, Segment 2 and
the stack; the final `kfree(as)` has no effect on the allocator and is left out. -/
def as_destroy (fuel : Nat) (cm : CoreMap) (as : addrspace) : Run CoreMap :=
  match destroy_loop fuel as.as_npages1 0 cm as.as_pbase1 with
  | Run.panic => Run.panic
  | Run.spin => Run.spin
  | Run.ret cm1 =>
    match destroy_loop fuel as.as_npages2 0 cm1 as.as_pbase2 with
    | Run.panic => Run.panic
    | Run.spin => Run.spin
    | Run.ret cm2 => destroy_loop fuel DUMBVM_STACKPAGES 0 cm2 as.as_stackpbase

/-- Function `memmove(dst, src, len)` for physical addresses `dst` and `src` (the kernel reaches
them through `PADDR_TO_KVADDR`): the `len / 4` words of the RAM from the word of `dst` on
receive the words that were stored from the word of `src` on. -/
def memmove (cm : CoreMap) (dst src len : Nat) : CoreMap :=
  { cm with
    tags := fun j =>
      if word_index cm.start dst ≤ j ∧ j < word_index cm.start dst + len / 4
      then cm.tags (word_index cm.start src + (j - word_index cm.start dst)) else cm.tags j }

/-- One of the three loops of `as_copy`: for each of the `k` remaining indices `i`,
`memmove` of one page from `oldt[i]` to `newt[i]`.  A read through `NULL` or past a block
is `panic`. -/
def copy_loop : Nat → Nat → CoreMap → Option (List Nat) → Option (List Nat) → Run CoreMap
  | 0, _, cm, _, _ => Run.ret cm
  | k + 1, i, cm, newt, oldt =>
    match newt.bind (fun l => l[i]?), oldt.bind (fun l => l[i]?) with
    | some d, some s => copy_loop k (i + 1) (memmove cm d s PAGE_SIZE) newt oldt
    | _, _ => Run.panic

/-- Function `as_copy(old, ret)` with `OPT_A3`.  The result is the returned code, the
allocator (its variables and the RAM) and `*ret` (`none` when it is not assigned).
`loadelf` is the value the fresh `struct addrspace` happens to hold, `fuel` the step budget
of each `free_kpages` call made by `as_destroy`.  That `as_create` may return `NULL` is left
out. -/
def as_copy (ram_stealmem : CoreMap → Nat → CoreMap × Nat) (kmalloc : Nat → Option (List Nat))
    (fuel : Nat) (loadelf : Bool) (cm : CoreMap) (old : addrspace) :
    Run (Option Errno × CoreMap × Option addrspace) :=
  let new : addrspace :=
    { as_create loadelf with
      as_vbase1 := old.as_vbase1, as_npages1 := old.as_npages1,
      as_vbase2 := old.as_vbase2, as_npages2 := old.as_npages2,
      as_pbase1 := kmalloc old.as_npages1, as_pbase2 := kmalloc old.as_npages2,
      as_stackpbase := kmalloc DUMBVM_STACKPAGES }
  match as_prepare_load ram_stealmem kmalloc cm new with
  | Run.panic => Run.panic
  | Run.spin => Run.spin
  | Run.ret (some _, cm1, new1) =>
    match as_destroy fuel cm1 new1 with
    | Run.panic => Run.panic
    | Run.spin => Run.spin
    | Run.ret cm2 => Run.ret (some Errno.ENOMEM, cm2, none)
  | Run.ret (none, cm1, new1) =>
    match copy_loop old.as_npages1 0 cm1 new1.as_pbase1 old.as_pbase1 with
    | Run.panic => Run.panic
    | Run.spin => Run.spin
    | Run.ret cm2 =>
      match copy_loop old.as_npages2 0 cm2 new1.as_pbase2 old.as_pbase2 with
      | Run.panic => Run.panic
      | Run.spin => Run.spin
      | Run.ret cm3 =>
        match copy_loop DUMBVM_STACKPAGES 0 cm3 new1.as_stackpbase old.as_stackpbase with
        | Run.panic => Run.panic
        | Run.spin => Run.spin
        | Run.ret cm4 => Run.ret (none, cm4, some new1)

/-- Modelled from the spec: `TLBHI_INVALID(entryno)` of `mips/tlb.h` (not part of the
sources), an `entryhi` in kernel space that differs from slot to slot. -/
def TLBHI_INVALID (entryno : Nat) : Nat := ((0x80000 + entryno) * PAGE_SIZE) % WORD

/-- Modelled from the spec: `TLBLO_INVALID()` of `mips/tlb.h` (not part of the sources),
an `entrylo` without the valid bit. -/
def TLBLO_INVALID : Nat := 0

/-- Modelled from the spec: `curproc_getas()` of `proc.c` (not part of the sources): the
address space of the current process, `none` when there is no process or it has none. -/
def curproc_getas (curproc : Option (Option addrspace)) : Option addrspace := curproc.join

/-- The loop `for (i = 0; i < NUM_TLB; i++) tlb_write(TLBHI_INVALID(i), TLBLO_INVALID(), i)`
of `as_activate`, counting the remaining iterations in the first argument. -/
def flush_loop : Nat → Nat → TLB → TLB
  | 0, _, tlb => tlb
  | k + 1, i, tlb => flush_loop k (i + 1) (Function.update tlb i (TLBHI_INVALID i, TLBLO_INVALID))

/-- Function `as_activate()`: returns at once when `curproc_getas()` is `NULL`. -/
def as_activate (curproc : Option (Option addrspace)) (tlb : TLB) : TLB :=
  match curproc_getas curproc with
  | none => tlb
  | some _ => flush_loop NUM_TLB 0 tlb

/-! ## Tag indices touched by the allocator -/

/-- The indices at which the inner loop of `cmap_stealmem` reads the tag array
(`cur = tags[temp]` after `temp++`), in order; same recursion as `scan_run`. -/
def scan_reads (tags : Nat → Int) (size pages s : Nat) : Nat → Nat → Nat → Int → List Nat
  | 0, _, _, _ => []
  | k + 1, cnt, temp, cur =>
    if s + cnt < size ∧ cur = 0 then
      if cnt + 1 = pages then []
      else (temp + 1) :: scan_reads tags size pages s k (cnt + 1) (temp + 1) (tags (temp + 1))
    else []

/-- The indices at which `cmap_stealmem` reads or writes the tag array, in order: the
read at the head of the outer loop, the reads of the inner loop, and the writes of the
`for` loop when a run is found; same recursion as `cmap_loop`. -/
def cmap_accesses (st : CoreMap) (pages : Nat) : Nat → Nat → List Nat
  | 0, _ => []
  | k + 1, temp =>
    if temp < st.size then
      temp :: (scan_reads st.tags st.size pages temp (st.size - temp) 0 temp (st.tags temp) ++
        match scan_run st.tags st.size pages temp (st.size - temp) 0 temp (st.tags temp) with
        | Scan.found => (List.range pages).map (fun j => temp + j)
        | Scan.exit t => cmap_accesses st pages k (t + 1))
    else []

/-- The indices at which the `while` loop of `free_kpages` writes (`tags[temp] = 0`) and
then reads (`current = tags[temp]` after `temp++`), in order; same recursion as
`free_walk`. -/
def free_walk_accesses : Nat → (Nat → Int) → Nat → Int → List Nat
  | 0, _, _, _ => []
  | k + 1, tags, temp, current =>
    if current ≠ 1 ∧ current ≠ 0 then
      temp :: (temp + 1) :: free_walk_accesses k (Function.update tags temp 0) (temp + 1)
        (Function.update tags temp 0 (temp + 1))
    else []

/-- The indices at which `free_kpages(addr)` reads or writes the tag array within `fuel`
steps of its loop: the first write `tags[temp] = 0`, the read after `temp++`, then the
loop. -/
def free_accesses (fuel : Nat) (st : CoreMap) (addr : Nat) : List Nat :=
  let p_address := KVADDR_TO_PADDR addr
  let temp := (((p_address + WORD - st.start) % WORD) / PAGE_SIZE + WORD - 1) % WORD
  if temp < st.size then
    temp :: (temp + 1) :: free_walk_accesses fuel (Function.update st.tags temp 0) (temp + 1)
      (Function.update st.tags temp 0 (temp + 1))
  else []

/-! ## Predicates used by the statements -/

/-- What `vm_bootstrap` establishes when `ram_getsize` reports 32-bit addresses
`start ≤ end`: the allocator is switched on and `size` counts the whole pages between. -/
def initialized (st : CoreMap) : Prop :=
  st.ok = true ∧ st.start ≤ st.end_ ∧ st.end_ < WORD ∧ st.size = (st.end_ - st.start) / PAGE_SIZE

instance (st : CoreMap) : Decidable (initialized st) := by
  unfold initialized; infer_instance

/-- Frames `s, …, s+n-1` exist (are below `size`) and are all tagged `0`. -/
def FreeRun (tags : Nat → Int) (size s n : Nat) : Prop :=
  s + n ≤ size ∧ ∀ i, i < n → tags (s + i) = 0

instance (tags : Nat → Int) (size s n : Nat) : Decidable (FreeRun tags size s n) := by
  unfold FreeRun; infer_instance

/-- The tag array after the frames `s, …, s+n-1` have been tagged `1, …, n`. -/
def tagged (tags : Nat → Int) (s n : Nat) : Nat → Int :=
  fun j => if s ≤ j ∧ j < s + n then ((j - s + 1 : Nat) : Int) else tags j

/-- The tag array after the frames `s, …, s+n-1` have been cleared. -/
def cleared (tags : Nat → Int) (s n : Nat) : Nat → Int :=
  fun j => if s ≤ j ∧ j < s + n then 0 else tags j

/-- Index of the tag that `free_kpages` computes from a physical address (`start` is the
allocator base): the address `start + (s + 1) * PAGE_SIZE` belongs to tag `s`. -/
def frame_of (start A : Nat) : Nat := (A - start) / PAGE_SIZE - 1

/-- Frame index `i` lies in the run `r = (address returned by the allocator, length)`. -/
def covers (start : Nat) (r : Nat × Nat) (i : Nat) : Prop :=
  frame_of start r.1 ≤ i ∧ i < frame_of start r.1 + r.2

instance (start : Nat) (r : Nat × Nat) (i : Nat) : Decidable (covers start r i) := by
  unfold covers; infer_instance

/-- Run accounting: `runs` lists the outstanding runs as pairs (returned address, length).
Every run lies inside the tag array and is tagged `1, …, L` from its first frame, no frame
lies in two runs, and every frame outside all runs is tagged `0`. -/
def Layout (st : CoreMap) (runs : List (Nat × Nat)) : Prop :=
  (∀ r ∈ runs, r.1 = st.start + (frame_of st.start r.1 + 1) * PAGE_SIZE ∧ 1 ≤ r.2 ∧
      frame_of st.start r.1 + r.2 ≤ st.size ∧
      ∀ i, i < r.2 → st.tags (frame_of st.start r.1 + i) = (i : Int) + 1) ∧
  runs.Pairwise (fun a b => ∀ i, ¬ (covers st.start a i ∧ covers st.start b i)) ∧
  ∀ i, i < st.size → (∀ r ∈ runs, ¬ covers st.start r i) → st.tags i = 0

/-- Histories of the allocator: `vm_bootstrap`, then calls of `getppages` with `n ≥ 1`
(a returned address other than `0` becomes an outstanding run) and calls of `free_kpages`
that return, each on the kernel address of an outstanding run. -/
inductive Reach (ram_stealmem : CoreMap → Nat → CoreMap × Nat) :
    CoreMap → List (Nat × Nat) → Prop where
  | boot (lo hi : Nat) (mem : Nat → Int) (h1 : lo ≤ hi) (h2 : hi < WORD) :
      Reach ram_stealmem (vm_bootstrap lo hi mem) []
  | alloc (st : CoreMap) (runs : List (Nat × Nat)) (n : Nat) (h : Reach ram_stealmem st runs)
      (hn : 1 ≤ n) :
      Reach ram_stealmem (getppages ram_stealmem st n).1
        (if (getppages ram_stealmem st n).2 = 0 then runs
          else ((getppages ram_stealmem st n).2, n) :: runs)
  | release (st st' : CoreMap) (runs : List (Nat × Nat)) (A L fuel : Nat)
      (h : Reach ram_stealmem st runs) (hr : (A, L) ∈ runs)
      (hf : free_kpages fuel st (PADDR_TO_KVADDR A) = Run.ret st') :
      Reach ram_stealmem st' (runs.erase (A, L))

/-- A `ram_stealmem` that never has memory to hand out; it stands in for the boot-time
allocator of `ram.c` in concrete runs (which take the `ok` branch of `getppages`). -/
def no_ram : CoreMap → Nat → CoreMap × Nat := fun st _ => (st, 0)

/-- Four frames of RAM at `0x40000`, tags `1 0 0 0`. -/
def map4 : CoreMap := ⟨0x40000, 0x44000, 4, true, words [1, 0, 0, 0] 9⟩

/-- Two frames of RAM at `0x40000` whose words all hold `7` when `vm_bootstrap` runs. -/
def boot2 : CoreMap := vm_bootstrap 0x40000 0x42000 (fun _ => 7)

/-- Two frames of RAM at `0x40000`; after `vm_bootstrap` the two words that follow the tag
array hold `5` and `6`, the ones after them `0`. -/
def boot2' : CoreMap := vm_bootstrap 0x40000 0x42000 (words [3, 3, 5, 6] 0)

/-- The frame table of a region is allocated, has `n` entries and every entry is a
page-aligned 32-bit address. -/
def frames_ok (table : Option (List Nat)) (n : Nat) : Prop :=
  match table with
  | some l => l.length = n ∧ ∀ p ∈ l, p &&& PAGE_FRAME = p
  | none => False

instance (table : Option (List Nat)) (n : Nat) : Decidable (frames_ok table n) := by
  unfold frames_ok; split <;> infer_instance

/-- The three regions are backed by frames: the conditions `vm_fault` asserts, with the
frame tables filled as `as_define_region` and `as_prepare_load` leave them. -/
def backed (as : addrspace) : Prop :=
  as.as_vbase1 ≠ 0 ∧ as.as_npages1 ≠ 0 ∧ as.as_vbase2 ≠ 0 ∧ as.as_npages2 ≠ 0 ∧
  as.as_vbase1 &&& PAGE_FRAME = as.as_vbase1 ∧ as.as_vbase2 &&& PAGE_FRAME = as.as_vbase2 ∧
  frames_ok as.as_pbase1 as.as_npages1 ∧ frames_ok as.as_pbase2 as.as_npages2 ∧
  frames_ok as.as_stackpbase DUMBVM_STACKPAGES

instance (as : addrspace) : Decidable (backed as) := by
  unfold backed; infer_instance

/-- Address `a` lies in `[vbase1, vtop1)` as `vm_fault` computes the bounds. -/
def in_seg1 (as : addrspace) (a : Nat) : Prop :=
  as.as_vbase1 ≤ a ∧ a < (as.as_vbase1 + as.as_npages1 * PAGE_SIZE) % WORD

/-- Address `a` lies in `[vbase2, vtop2)` as `vm_fault` computes the bounds. -/
def in_seg2 (as : addrspace) (a : Nat) : Prop :=
  as.as_vbase2 ≤ a ∧ a < (as.as_vbase2 + as.as_npages2 * PAGE_SIZE) % WORD

/-- Address `a` lies in `[stackbase, stacktop)`. -/
def in_stack (a : Nat) : Prop :=
  USERSTACK - DUMBVM_STACKPAGES * PAGE_SIZE ≤ a ∧ a < USERSTACK

instance (as : addrspace) (a : Nat) : Decidable (in_seg1 as a) := by
  unfold in_seg1; infer_instance

instance (as : addrspace) (a : Nat) : Decidable (in_seg2 as a) := by
  unfold in_seg2; infer_instance

instance (a : Nat) : Decidable (in_stack a) := by
  unfold in_stack; infer_instance

/-- The slot `vm_fault` writes: an invalid slot below `NUM_TLB` all of whose predecessors
are valid, or the hardware-chosen slot when all `NUM_TLB` slots are valid. -/
def slot_chosen (tlb : TLB) (random slot : Nat) : Prop :=
  (slot < NUM_TLB ∧ (tlb slot).2 &&& TLBLO_VALID = 0 ∧
      ∀ j, j < slot → (tlb j).2 &&& TLBLO_VALID ≠ 0) ∨
  ((∀ j, j < NUM_TLB → (tlb j).2 &&& TLBLO_VALID ≠ 0) ∧ slot = random)

/-- The value a routine returned, if it returned. -/
def Run.value {α : Type} : Run α → Option α
  | Run.ret a => some a
  | Run.panic => none
  | Run.spin => none

/-- Whether a routine ended in `panic`. -/
def Run.crashed {α : Type} : Run α → Bool
  | Run.ret _ => false
  | Run.panic => true
  | Run.spin => false

/-- The address space `demo_as loadelf` after `as_prepare_load` on the allocator `cm`
(`none` when `as_prepare_load` does not return). -/
def loaded_as (cm : CoreMap) (loadelf : Bool) : Option addrspace :=
  ((as_prepare_load no_ram (heap 0) cm (demo_as loadelf)).value).map (fun r => r.2.2)

/-- The address space `loaded_as boot20 loadelf`, written out. -/
def demo_loaded (loadelf : Bool) : addrspace :=
  { as_vbase1 := 0x400000, as_pbase1 := some [0x41000, 0x42000], as_npages1 := 2,
    as_vbase2 := 0x500000, as_pbase2 := some [0x43000], as_npages2 := 1,
    as_stackpbase := some [0x44000, 0x45000, 0x46000, 0x47000, 0x48000, 0x49000, 0x4a000,
      0x4b000, 0x4c000, 0x4d000, 0x4e000, 0x4f000],
    loadelf := loadelf }

/-- The address space `loaded_as frag20 loadelf`, written out: the two frames of Segment 1
are not adjacent. -/
def frag_loaded (loadelf : Bool) : addrspace :=
  { as_vbase1 := 0x400000, as_pbase1 := some [0x41000, 0x43000], as_npages1 := 2,
    as_vbase2 := 0x500000, as_pbase2 := some [0x44000], as_npages2 := 1,
    as_stackpbase := some [0x45000, 0x46000, 0x47000, 0x48000, 0x49000, 0x4a000, 0x4b000,
      0x4c000, 0x4d000, 0x4e000, 0x4f000, 0x50000],
    loadelf := loadelf }

/-- Twenty frames of RAM at `0x40000` in which only the frame of tag `1` is allocated: the
state after `vm_bootstrap`, two `getppages(1)` and `free_kpages` of the first page. -/
def frag20 : CoreMap := ⟨0x40000, 0x54000, 20, true, words [0, 1] 0⟩

/-- The page count `as_define_region` computes from `vaddr` and `sz`. -/
def region_npages (vaddr sz : Nat) : Nat :=
  ((((sz + (vaddr &&& (WORD - 1 - PAGE_FRAME))) % WORD + PAGE_SIZE - 1) % WORD) &&& PAGE_FRAME)
    / PAGE_SIZE

/-- The frames of a region: the first `n` entries of its table (none for `NULL`). -/
def region_frames (table : Option (List Nat)) (n : Nat) : List Nat := (table.getD []).take n

/-- All frames of an address space: Segment 1, Segment 2, then the stack. -/
def as_frames (as : addrspace) : List Nat :=
  region_frames as.as_pbase1 as.as_npages1 ++ region_frames as.as_pbase2 as.as_npages2 ++
    region_frames as.as_stackpbase DUMBVM_STACKPAGES

/-- Every frame of the address space is a frame the allocator has handed out and not taken
back: its address is `start + (s + 1) * PAGE_SIZE` for a tag index `s < size` whose tag is
not `0`. -/
def loaded (cm : CoreMap) (as : addrspace) : Prop :=
  ∀ p ∈ as_frames as, ∃ s, s < cm.size ∧ (p = cm.start + (s + 1) * PAGE_SIZE ∧ cm.tags s ≠ 0)

instance (cm : CoreMap) (as : addrspace) : Decidable (loaded cm as) := by
  unfold loaded; infer_instance

/-- Twenty frames of RAM at `0x40000` in which only the frame of tag `15` is free; the
frames of tags `0, …, 14` are the frames of `demo_loaded`. -/
def full20 : CoreMap :=
  ⟨0x40000, 0x54000, 20, true,
    words [1, 1, 1, 1, 1, 1, 1, 1, 1, 1, 1, 1, 1, 1, 1, 0, 1, 1, 1, 1] 0⟩

/-- The allocator after `as_prepare_load` of `demo_as loadelf` on the allocator `cm` (`cm`
itself when `as_prepare_load` does not return). -/
def loaded_cm (cm : CoreMap) (loadelf : Bool) : CoreMap :=
  match as_prepare_load no_ram (heap 0) cm (demo_as loadelf) with
  | Run.ret r => r.2.1
  | Run.panic => cm
  | Run.spin => cm

/-- Four frames of RAM at `0x40000` whose words all hold `7` when `vm_bootstrap` runs. -/
def pool4 : CoreMap := vm_bootstrap 0x40000 0x44000 (fun _ => 7)

/-- The allocator `pool4` after `getppages(2)`, which returns `0x41000`. -/
def hist1 : CoreMap := (getppages no_ram pool4 2).1

/-- The allocator `hist1` after `getppages(1)`, which returns `0x43000`. -/
def hist2 : CoreMap := (getppages no_ram hist1 1).1

/-- The allocator `hist2` after `free_kpages` of the first run (`hist2` itself when
`free_kpages` does not return within two steps). -/
def hist3 : CoreMap :=
  match free_kpages 2 hist2 (PADDR_TO_KVADDR 0x41000) with
  | Run.ret st => st
  | Run.panic => hist2
  | Run.spin => hist2

/-- The allocator `hist3` after `getppages(1)`, which returns `0x41000` again. -/
def hist4 : CoreMap := (getppages no_ram hist3 1).1

/-- An allocator over 1100 frames of RAM at `0x40000` (the tag array is longer than a page):
tag `0` is free, tags `1, …, 1038` are runs of one page, tags `1039, …, 1099` are free, and
every later word of the RAM, the words of the frames among them, holds `7`. -/
def crowded1100 : CoreMap :=
  ⟨0x40000, 0x48c000, 1100, true,
    fun j => if j = 0 then 0 else if j < 1039 then 1 else if j < 1100 then 0 else 7⟩

/-- An address space with a 1-page Segment 1 at `0x400000` and a 1-page Segment 2 at
`0x500000` whose 14 frames are those of the tags `1024, …, 1037` of an allocator at
`0x40000`. -/
def far_loaded (loadelf : Bool) : addrspace :=
  { as_vbase1 := 0x400000, as_pbase1 := some [0x441000], as_npages1 := 1,
    as_vbase2 := 0x500000, as_pbase2 := some [0x442000], as_npages2 := 1,
    as_stackpbase := some [0x443000, 0x444000, 0x445000, 0x446000, 0x447000, 0x448000,
      0x449000, 0x44a000, 0x44b000, 0x44c000, 0x44d000, 0x44e000],
    loadelf := loadelf }

/-- The address space that `as_copy` builds from `far_loaded` on the allocator
`crowded1100`, written out. -/
def far_copy (loadelf : Bool) : addrspace :=
  { as_vbase1 := 0x400000, as_pbase1 := some [0x41000], as_npages1 := 1,
    as_vbase2 := 0x500000, as_pbase2 := some [0x441000], as_npages2 := 1,
    as_stackpbase := some [0x442000, 0x443000, 0x444000, 0x445000, 0x446000, 0x447000,
      0x448000, 0x449000, 0x44a000, 0x44b000, 0x44c000, 0x44d000],
    loadelf := loadelf }

/-- The allocator after `as_prepare_load` has taken, one `getppages(1)` and one
`as_zero_region` at a time, the `k` frames of the tags `a, …, a+k-1`: these tags are `1`
and the `1024 * k` words of the frames, which start at the word `1024 * (a + 1)`, are `0`. -/
def after_load (cm : CoreMap) (a k : Nat) : CoreMap :=
  { cm with
    tags := fun j =>
      if a ≤ j ∧ j < a + k then 1
      else if 1024 * (a + 1) ≤ j ∧ j < 1024 * (a + 1 + k) then 0 else cm.tags j }

/-- The RAM after the pages at the source addresses `ss` have been copied, one `memmove` of
`PAGE_SIZE` bytes at a time and in order, to the destination addresses `ds`. -/
def copy_pages : CoreMap → List Nat → List Nat → CoreMap
  | cm, d :: ds, s :: ss => copy_pages (memmove cm d s PAGE_SIZE) ds ss
  | cm, _, _ => cm

/-- The table `l` after the entries `i, i+1, …` have received the addresses of the `k` frames
of the tags `a, a+1, …`, one `as_pbase[i] = adr` at a time. -/
def store_frames (start : Nat) : Nat → Nat → Nat → List Nat → List Nat
  | 0, _, _, l => l
  | k + 1, a, i, l => store_frames start k (a + 1) (i + 1) (l.set i (start + (a + 1) * PAGE_SIZE))

/-- An allocator over 1100 frames of RAM at `0x40000` with one outstanding run, the 16
frames of tags `1024, …, 1039` (address `0x441000`); every other word is `0`. -/
def shared1100 : CoreMap :=
  ⟨0x40000, 0x48c000, 1100, true, fun j => if 1024 ≤ j ∧ j < 1040 then (j : Int) - 1023 else 0⟩

/-! ## Theorems -/

/-! ### Frame allocator: the loops -/

theorem zero_tags_apply (k i : Nat) (tags : Nat → Int) (j : Nat) :
    zero_tags k i tags j = if i ≤ j ∧ j < i + k then 0 else tags j := by
  induction k generalizing i tags with
  | zero => rw [zero_tags, if_neg (by omega)]
  | succ k ih =>
    rw [zero_tags, ih]
    by_cases h1 : j = i
    · subst h1; simp
    · rw [Function.update_noteq h1]
      by_cases h2 : i ≤ j ∧ j < i + (k + 1)
      · rw [if_pos h2, if_pos (by omega)]
      · rw [if_neg h2, if_neg (by omega)]

theorem mark_run_apply (pages k i temp : Nat) (tags : Nat → Int) (j : Nat)
    (h : i + k ≤ pages + 1) :
    mark_run pages k i temp tags j
      = if temp ≤ j ∧ j < temp + k then ((i + (j - temp) : Nat) : Int) else tags j := by
  induction k generalizing i temp tags with
  | zero => rw [mark_run, if_neg (by omega)]
  | succ k ih =>
    rw [mark_run, if_pos (by omega), ih _ _ _ (by omega)]
    by_cases h1 : j = temp
    · subst h1; simp
    · rw [Function.update_noteq h1]
      by_cases h2 : temp ≤ j ∧ j < temp + (k + 1)
      · rw [if_pos h2, if_pos (by omega)]
        congr 1; omega
      · rw [if_neg h2, if_neg (by omega)]

theorem mark_run_eq_tagged (pages s : Nat) (tags : Nat → Int) :
    mark_run pages pages 1 s tags = tagged tags s pages := by
  funext j
  rw [mark_run_apply _ _ _ _ _ _ (by omega)]
  unfold tagged
  by_cases h : s ≤ j ∧ j < s + pages
  · rw [if_pos h, if_pos h]; congr 1; omega
  · rw [if_neg h, if_neg h]

/-- What the inner scan of `cmap_stealmem` delivers when it is entered with the frames
`s, …, s+cnt-1` already seen free. -/
theorem scan_run_spec (tags : Nat → Int) (size pages s : Nat) :
    ∀ (k cnt temp : Nat) (cur : Int), k = size - (s + cnt) → cnt < pages → temp = s + cnt →
      cur = tags temp → (∀ i, i < cnt → tags (s + i) = 0) →
      match scan_run tags size pages s k cnt temp cur with
      | Scan.found => FreeRun tags size s pages
      | Scan.exit t => s ≤ t ∧ t < s + pages ∧ ¬ (t < size ∧ tags t = 0) := by
  intro k
  induction k with
  | zero =>
    intro cnt temp cur hk hc ht hcur hfree
    simp only [scan_run]
    refine ⟨by omega, by omega, ?_⟩
    rintro ⟨h1, -⟩; omega
  | succ k ih =>
    intro cnt temp cur hk hc ht hcur hfree
    rw [scan_run]
    by_cases hcond : s + cnt < size ∧ cur = 0
    · rw [if_pos hcond]
      by_cases hp : cnt + 1 = pages
      · rw [if_pos hp]
        refine ⟨by omega, ?_⟩
        intro i hi
        by_cases hic : i < cnt
        · exact hfree i hic
        · have : i = cnt := by omega
          subst this; rw [← ht, ← hcur]; exact hcond.2
      · rw [if_neg hp]
        apply ih (cnt + 1) (temp + 1) (tags (temp + 1)) (by omega) (by omega) (by omega) rfl
        intro i hi
        by_cases hic : i < cnt
        · exact hfree i hic
        · have : i = cnt := by omega
          subst this; rw [← ht, ← hcur]; exact hcond.2
    · rw [if_neg hcond]
      refine ⟨by omega, by omega, ?_⟩
      rintro ⟨h1, h2⟩
      apply hcond
      subst ht
      exact ⟨h1, by rw [hcur]; exact h2⟩

/-- The outer loop of `cmap_stealmem`, entered at `temp` when no free run of `pages` frames
starts below `temp`: either it tags the lowest free run and returns the address computed
from its first index, or there is no free run and nothing changes. -/
theorem cmap_loop_spec (st : CoreMap) (pages : Nat) (hp : 1 ≤ pages) :
    ∀ (k temp : Nat), st.size ≤ temp + k →
      (∀ s, s < temp → ¬ FreeRun st.tags st.size s pages) →
      (∃ s, FreeRun st.tags st.size s pages ∧ (∀ s', s' < s → ¬ FreeRun st.tags st.size s' pages) ∧
          cmap_loop st pages k temp
            = ({ st with tags := tagged st.tags s pages }, ((s + 1) * PAGE_SIZE + st.start) % WORD)) ∨
      ((∀ s, ¬ FreeRun st.tags st.size s pages) ∧ cmap_loop st pages k temp = (st, 0)) := by
  intro k
  induction k with
  | zero =>
    intro temp hk hlow
    right
    refine ⟨?_, rfl⟩
    intro s hs
    by_cases h : s < temp
    · exact hlow s h hs
    · have := hs.1; omega
  | succ k ih =>
    intro temp hk hlow
    rw [cmap_loop]
    by_cases ht : temp < st.size
    · rw [if_pos ht]
      have hscan := scan_run_spec st.tags st.size pages temp (st.size - temp) 0 temp (st.tags temp)
        (by omega) (by omega) (by omega) rfl (by intro i hi; omega)
      cases hres : scan_run st.tags st.size pages temp (st.size - temp) 0 temp (st.tags temp) with
      | found =>
        rw [hres] at hscan
        left
        exact ⟨temp, hscan, hlow, by simp only [mark_run_eq_tagged]⟩
      | exit t =>
        rw [hres] at hscan
        simp only
        obtain ⟨h1, h2, h3⟩ := hscan
        apply ih (t + 1) (by omega)
        intro s hs hrun
        by_cases hlt : s < temp
        · exact hlow s hlt hrun
        · apply h3
          have hz := hrun.2 (t - s) (by omega)
          have he : s + (t - s) = t := by omega
          rw [he] at hz
          exact ⟨by have := hrun.1; omega, hz⟩
    · rw [if_neg ht]
      right
      refine ⟨?_, rfl⟩
      intro s hs
      by_cases h : s < temp
      · exact hlow s h hs
      · have := hs.1; omega

theorem cmap_stealmem_spec (st : CoreMap) (pages : Nat) (hp : 1 ≤ pages) :
    (∃ s, FreeRun st.tags st.size s pages ∧ (∀ s', s' < s → ¬ FreeRun st.tags st.size s' pages) ∧
        cmap_stealmem st pages
          = ({ st with tags := tagged st.tags s pages }, ((s + 1) * PAGE_SIZE + st.start) % WORD)) ∨
    ((∀ s, ¬ FreeRun st.tags st.size s pages) ∧ cmap_stealmem st pages = (st, 0)) :=
  cmap_loop_spec st pages hp st.size 0 (by omega) (by intro s hs; omega)

/-- Inside an initialized allocator the address computed for a run that fits does not wrap
and is not `0`. -/
theorem run_address (st : CoreMap) (hst : initialized st) (s n : Nat) (hn : 1 ≤ n)
    (hfit : s + n ≤ st.size) :
    ((s + 1) * PAGE_SIZE + st.start) % WORD = st.start + (s + 1) * PAGE_SIZE ∧
      st.start + (s + 1) * PAGE_SIZE ≤ st.end_ ∧ st.start + (s + 1) * PAGE_SIZE ≠ 0 := by
  obtain ⟨-, h1, h2, h3⟩ := hst
  unfold PAGE_SIZE WORD at *
  have : (s + 1) * 4096 + st.start ≤ st.end_ := by omega
  refine ⟨?_, by omega, by omega⟩
  rw [Nat.mod_eq_of_lt (by omega)]; omega

/-! ### Frame allocator: release -/

theorem free_walk_stop (k : Nat) (tags : Nat → Int) (temp : Nat) (cur : Int)
    (h : cur = 0 ∨ cur = 1) : free_walk (k + 1) tags temp cur = some tags := by
  rw [free_walk, if_neg]
  rintro ⟨h1, h0⟩
  rcases h with h | h
  · exact h0 h
  · exact h1 h

/-- The walk of `free_kpages` never writes below the index it is entered with. -/
theorem free_walk_frame :
    ∀ (k : Nat) (tags : Nat → Int) (temp : Nat) (cur : Int) (t : Nat → Int),
      free_walk k tags temp cur = some t → ∀ j, j < temp → t j = tags j := by
  intro k
  induction k with
  | zero => intro tags temp cur t h; simp [free_walk] at h
  | succ k ih =>
    intro tags temp cur t h j hj
    rw [free_walk] at h
    by_cases hc : cur ≠ 1 ∧ cur ≠ 0
    · rw [if_pos hc] at h
      rw [ih _ _ _ _ h j (by omega), Function.update_noteq (by omega)]
    · rw [if_neg hc] at h
      cases h; rfl

theorem cleared_zero (tags : Nat → Int) (s : Nat) : cleared tags s 0 = tags := by
  funext j
  unfold cleared
  rw [if_neg (by omega)]

theorem cleared_step (tags : Nat → Int) (s m : Nat) :
    cleared (Function.update tags s 0) (s + 1) m = cleared tags s (m + 1) := by
  funext j
  unfold cleared
  by_cases h1 : j = s
  · subst h1
    rw [if_neg (by omega), if_pos (by omega), Function.update_same]
  · rw [Function.update_noteq h1]
    by_cases h2 : s + 1 ≤ j ∧ j < s + 1 + m
    · rw [if_pos h2, if_pos (by omega)]
    · rw [if_neg h2, if_neg (by omega)]

/-- The walk clears `m` consecutive words that hold neither `0` nor `1`, one per step. -/
theorem free_walk_through :
    ∀ (m k : Nat) (tags : Nat → Int) (temp : Nat) (cur : Int), cur = tags temp →
      (∀ i, i < m → tags (temp + i) ≠ 1 ∧ tags (temp + i) ≠ 0) →
      free_walk (m + k) tags temp cur
        = free_walk k (cleared tags temp m) (temp + m) (tags (temp + m)) := by
  intro m
  induction m with
  | zero =>
    intro k tags temp cur hc _
    rw [cleared_zero, hc]; simp
  | succ m ih =>
    intro k tags temp cur hc hrun
    have e : m + 1 + k = (m + k) + 1 := by omega
    rw [e, free_walk, if_pos (by rw [hc]; simpa using hrun 0 (by omega))]
    rw [ih k _ _ _ rfl, cleared_step]
    · have e2 : temp + 1 + m = temp + (m + 1) := by omega
      rw [e2, Function.update_noteq (by omega)]
    · intro i hi
      have := hrun (i + 1) (by omega)
      have e3 : temp + 1 + i = temp + (i + 1) := by omega
      rw [e3, Function.update_noteq (by omega)]
      exact this

/-- Function `free_kpages` recovers the first frame index of a run from the kernel address of the
physical address `cmap_stealmem` returned for it. -/
theorem free_index (st : CoreMap) (hst : initialized st) (s : Nat) (hs : s < st.size) :
    (((KVADDR_TO_PADDR (PADDR_TO_KVADDR (st.start + (s + 1) * PAGE_SIZE)) + WORD - st.start) % WORD)
        / PAGE_SIZE + WORD - 1) % WORD = s := by
  obtain ⟨-, h1, h2, h3⟩ := hst
  unfold KVADDR_TO_PADDR PADDR_TO_KVADDR MIPS_KSEG0 PAGE_SIZE WORD at *
  omega

/-- The state of the walk of `free_kpages` once it has cleared the run `s, …, s+L-1`. -/
theorem free_kpages_unfold (fuel : Nat) (st : CoreMap) (hst : initialized st) (s L : Nat)
    (hL : 1 ≤ L) (hfit : s + L ≤ st.size)
    (htag : ∀ i, i < L → st.tags (s + i) = (i : Int) + 1) :
    free_kpages (L - 1 + fuel) st (PADDR_TO_KVADDR (st.start + (s + 1) * PAGE_SIZE))
      = match free_walk fuel (cleared st.tags s L) (s + L) (st.tags (s + L)) with
        | some t => Run.ret { st with tags := t }
        | none => Run.spin := by
  unfold free_kpages
  simp only
  rw [free_index st hst s (by omega), if_pos (by omega)]
  rw [free_walk_through (L - 1) fuel _ (s + 1) _ rfl, cleared_step]
  · have e : s + 1 + (L - 1) = s + L := by omega
    have e2 : L - 1 + 1 = L := by omega
    rw [e, e2, Function.update_noteq (by omega)]
  · intro i hi
    have e : s + 1 + i = s + (i + 1) := by omega
    rw [e, Function.update_noteq (by omega), htag (i + 1) (by omega)]
    constructor <;> · push_cast; omega

/-- A budget smaller than the run length is used up inside the run. -/
theorem free_kpages_short (fuel : Nat) (st : CoreMap) (hst : initialized st) (s L : Nat)
    (hL : 1 ≤ L) (hfit : s + L ≤ st.size)
    (htag : ∀ i, i < L → st.tags (s + i) = (i : Int) + 1) (hfuel : fuel < L) :
    free_kpages fuel st (PADDR_TO_KVADDR (st.start + (s + 1) * PAGE_SIZE)) = Run.spin := by
  unfold free_kpages
  simp only
  rw [free_index st hst s (by omega), if_pos (by omega)]
  have := free_walk_through fuel 0 (Function.update st.tags s 0) (s + 1)
    (Function.update st.tags s 0 (s + 1)) rfl (by
      intro i hi
      have e : s + 1 + i = s + (i + 1) := by omega
      rw [e, Function.update_noteq (by omega), htag (i + 1) (by omega)]
      constructor <;> · push_cast; omega)
  rw [Nat.add_zero] at this
  rw [this]
  rfl

/-- Release of a run that is followed, inside the tag array, by a free frame or by the
first frame of another run: `L` steps are enough and exactly the run is cleared. -/
theorem free_kpages_inner_run (st : CoreMap) (hst : initialized st) (s L : Nat)
    (hL : 1 ≤ L) (hfit : s + L ≤ st.size)
    (htag : ∀ i, i < L → st.tags (s + i) = (i : Int) + 1)
    (hnext : st.tags (s + L) = 0 ∨ st.tags (s + L) = 1) (k : Nat) :
    free_kpages (L + k) st (PADDR_TO_KVADDR (st.start + (s + 1) * PAGE_SIZE))
      = Run.ret { st with tags := cleared st.tags s L } := by
  have e : L + k = L - 1 + (k + 1) := by omega
  rw [e, free_kpages_unfold (k + 1) st hst s L hL hfit htag, free_walk_stop _ _ _ _ hnext]

/-- Whenever the release of a run returns, the tags below `size` are those of the old
array with the run cleared, and the other variables are untouched. -/
theorem free_kpages_returns (fuel : Nat) (st st' : CoreMap) (hst : initialized st) (s L : Nat)
    (hL : 1 ≤ L) (hfit : s + L ≤ st.size)
    (htag : ∀ i, i < L → st.tags (s + i) = (i : Int) + 1)
    (hnext : s + L < st.size → st.tags (s + L) = 0 ∨ st.tags (s + L) = 1)
    (h : free_kpages fuel st (PADDR_TO_KVADDR (st.start + (s + 1) * PAGE_SIZE)) = Run.ret st') :
    st'.start = st.start ∧ st'.end_ = st.end_ ∧ st'.size = st.size ∧ st'.ok = st.ok ∧
      ∀ j, j < st.size → st'.tags j = cleared st.tags s L j := by
  by_cases hf : fuel < L
  · rw [free_kpages_short fuel st hst s L hL hfit htag hf] at h
    cases h
  · have e : fuel = L - 1 + (fuel - (L - 1)) := by omega
    rw [e, free_kpages_unfold _ st hst s L hL hfit htag] at h
    cases hw : free_walk (fuel - (L - 1)) (cleared st.tags s L) (s + L) (st.tags (s + L)) with
    | none => rw [hw] at h; cases h
    | some t =>
      rw [hw] at h
      simp only [Run.ret.injEq] at h
      subst h
      refine ⟨rfl, rfl, rfl, rfl, ?_⟩
      intro j hj
      by_cases hlt : j < s + L
      · exact free_walk_frame _ _ _ _ _ hw j hlt
      · have e2 : fuel - (L - 1) = (fuel - L) + 1 := by omega
        rw [e2, free_walk_stop _ _ _ _ (hnext (by omega))] at hw
        cases hw; rfl

/-- The result of `cmap_stealmem` when the lowest free run of `pages` frames is known. -/
theorem cmap_stealmem_chosen (st : CoreMap) (pages s : Nat) (hp : 1 ≤ pages)
    (hfree : FreeRun st.tags st.size s pages)
    (hleast : ∀ s', s' < s → ¬ FreeRun st.tags st.size s' pages) :
    cmap_stealmem st pages
      = ({ st with tags := tagged st.tags s pages }, ((s + 1) * PAGE_SIZE + st.start) % WORD) := by
  rcases cmap_stealmem_spec st pages hp with ⟨s0, hfree0, hleast0, heq⟩ | ⟨hnone, -⟩
  · have hs : s0 = s := by
      rcases Nat.lt_trichotomy s0 s with h | h | h
      · exact absurd hfree0 (hleast s0 h)
      · exact h
      · exact absurd hfree (hleast0 s h)
    subst hs
    exact heq
  · exact absurd hfree (hnone s)

/-! ### Frame allocator: claims -/

/-- C1 (first fit).  In an initialized allocator `getppages(n)`, `n ≥ 1`, returns a
non-zero address exactly when `n` consecutive free frames exist below `size`; then the run
it tags starts at the smallest index `s` whose frames `s, …, s+n-1` are all free; when no
such run exists it returns `0` and the allocator state is unchanged. -/
theorem getppages_first_fit (ram_stealmem : CoreMap → Nat → CoreMap × Nat) (st : CoreMap)
    (n : Nat) (hst : initialized st) (hn : 1 ≤ n) :
    ((getppages ram_stealmem st n).2 ≠ 0 ↔ ∃ s, FreeRun st.tags st.size s n) ∧
    ((getppages ram_stealmem st n).2 ≠ 0 →
      ∃ s, FreeRun st.tags st.size s n ∧ (∀ s', s' < s → ¬ FreeRun st.tags st.size s' n) ∧
        (getppages ram_stealmem st n).1.tags = tagged st.tags s n) ∧
    ((¬ ∃ s, FreeRun st.tags st.size s n) → getppages ram_stealmem st n = (st, 0)) := by
  have hok : getppages ram_stealmem st n = cmap_stealmem st n := by
    unfold getppages; rw [if_pos hst.1]
  rw [hok]
  rcases cmap_stealmem_spec st n hn with ⟨s, hfree, hleast, heq⟩ | ⟨hnone, heq⟩
  · have haddr := run_address st hst s n hn hfree.1
    have hne : (cmap_stealmem st n).2 ≠ 0 := by
      rw [heq]; simp only; rw [haddr.1]; exact haddr.2.2
    refine ⟨⟨fun _ => ⟨s, hfree⟩, fun _ => hne⟩, fun _ => ⟨s, hfree, hleast, by rw [heq]⟩, ?_⟩
    intro h; exact absurd ⟨s, hfree⟩ h
  · have hz : (cmap_stealmem st n).2 = 0 := by rw [heq]
    refine ⟨⟨fun h => absurd hz h, fun ⟨s, hs⟩ => absurd hs (hnone s)⟩, fun h => absurd hz h,
      fun _ => heq⟩

/-- C1, at four frames tagged `1 0 0 0` and `n = 2`. -/
theorem getppages_first_fit_witness :
    initialized map4 ∧ 1 ≤ 2 ∧
      ((getppages no_ram map4 2).2 ≠ 0 ↔ ∃ s, FreeRun map4.tags map4.size s 2) :=
  ⟨by decide, by decide, (getppages_first_fit no_ram map4 2 (by decide) (by decide)).1⟩

/-- C2 as written fails: on a freshly bootstrapped allocator `getppages(1)` chooses the
free run at frame index `0`, and the address it returns is not `start + 0 * PAGE_SIZE`. -/
theorem getppages_address_counterexample :
    initialized boot2 ∧ FreeRun boot2.tags boot2.size 0 1 ∧
      (getppages no_ram boot2 1).2 ≠ 0 ∧
      (getppages no_ram boot2 1).1.tags 0 = 1 ∧
      (getppages no_ram boot2 1).2 ≠ boot2.start + 0 * PAGE_SIZE := by
  decide

/-- C2 (amended).  When `getppages(n)` chooses the free run starting at frame index `s`
(the lowest free run of `n` frames), the tags of `s, …, s+n-1` become `1, …, n`, every other
word of the tag memory and the variables `start`, `end`, `size`, `ok` are unchanged, and
the address returned is `start + (s + 1) * PAGE_SIZE`. -/
theorem getppages_tags_and_address (ram_stealmem : CoreMap → Nat → CoreMap × Nat) (st : CoreMap)
    (n s : Nat) (hst : initialized st) (hn : 1 ≤ n) (hfree : FreeRun st.tags st.size s n)
    (hleast : ∀ s', s' < s → ¬ FreeRun st.tags st.size s' n) :
    (∀ i, i < n → (getppages ram_stealmem st n).1.tags (s + i) = (i : Int) + 1) ∧
    (∀ j, ¬ (s ≤ j ∧ j < s + n) → (getppages ram_stealmem st n).1.tags j = st.tags j) ∧
    (getppages ram_stealmem st n).2 = st.start + (s + 1) * PAGE_SIZE ∧
    (getppages ram_stealmem st n).1.start = st.start ∧
    (getppages ram_stealmem st n).1.end_ = st.end_ ∧
    (getppages ram_stealmem st n).1.size = st.size ∧
    (getppages ram_stealmem st n).1.ok = st.ok := by
  have hok : getppages ram_stealmem st n = cmap_stealmem st n := by
    unfold getppages; rw [if_pos hst.1]
  rw [hok]
  rw [cmap_stealmem_chosen st n s hn hfree hleast]
  refine ⟨?_, ?_, (run_address st hst s n hn hfree.1).1, rfl, rfl, rfl, rfl⟩
  · intro i hi
    simp only [tagged]
    rw [if_pos (by omega)]
    have e : s + i - s + 1 = i + 1 := by omega
    rw [e]; push_cast; rfl
  · intro j hj
    simp only [tagged]
    rw [if_neg hj]

/-- C2 (amended), at four frames tagged `1 0 0 0` and `n = 2`: the run chosen starts at
frame index `1` and the address returned is `start + 2 * PAGE_SIZE`. -/
theorem getppages_tags_and_address_witness :
    (getppages no_ram map4 2).2 = map4.start + (1 + 1) * PAGE_SIZE :=
  (getppages_tags_and_address no_ram map4 2 1 (by decide) (by decide) (by decide)
    (by decide)).2.2.1

theorem free_walk_forever :
    ∀ (k : Nat) (tags : Nat → Int) (temp : Nat) (cur : Int), cur = tags temp →
      (∀ j, temp ≤ j → tags j ≠ 1 ∧ tags j ≠ 0) → free_walk k tags temp cur = none := by
  intro k
  induction k with
  | zero => intro tags temp cur _ _; rfl
  | succ k ih =>
    intro tags temp cur hc h
    rw [free_walk, if_pos (by rw [hc]; exact h temp (le_refl _))]
    apply ih _ _ _ rfl
    intro j hj
    rw [Function.update_noteq (by omega)]
    exact h j (by omega)

/-- C3 at its failing input.  Two frames of RAM, `getppages(2)` right after
`vm_bootstrap`: the run occupies both tags and ends at the last frame.  `free_kpages` on
its address clears the two tags and then goes on reading the words that follow the tag
array.  When those words hold `7` the loop never ends, whatever the step budget; when
they hold `5, 6, 0` it returns after also overwriting the two words past the array. -/
theorem free_kpages_last_frame_run :
    (getppages no_ram boot2 2).2 = 0x41000 ∧
    (∀ i, i < 2 → (getppages no_ram boot2 2).1.tags i = (i : Int) + 1) ∧
    (∀ fuel, free_kpages fuel (getppages no_ram boot2 2).1
        (PADDR_TO_KVADDR (getppages no_ram boot2 2).2) = Run.spin) ∧
    (getppages no_ram boot2' 2).2 = 0x41000 ∧
    (∀ i, i < 2 → (getppages no_ram boot2' 2).1.tags i = (i : Int) + 1) ∧
    (getppages no_ram boot2' 2).1.tags 2 = 5 ∧ (getppages no_ram boot2' 2).1.tags 3 = 6 ∧
    ∃ st', free_kpages 4 (getppages no_ram boot2' 2).1
        (PADDR_TO_KVADDR (getppages no_ram boot2' 2).2) = Run.ret st' ∧
      st'.tags 2 = 0 ∧ st'.tags 3 = 0 := by
  refine ⟨by decide, by decide, ?_, by decide, by decide, by decide, by decide,
    ⟨_, rfl, by decide, by decide⟩⟩
  intro fuel
  have hidx : (((KVADDR_TO_PADDR (PADDR_TO_KVADDR (getppages no_ram boot2 2).2) + WORD
      - (getppages no_ram boot2 2).1.start) % WORD) / PAGE_SIZE + WORD - 1) % WORD = 0 := by
    decide
  have hsize : (getppages no_ram boot2 2).1.size = 2 := by decide
  unfold free_kpages
  simp only
  rw [hidx, hsize, if_pos (by omega)]
  rw [free_walk_forever fuel _ _ _ rfl]
  intro j hj
  rw [Function.update_noteq (by omega)]
  have ht : getppages no_ram boot2 2 = cmap_stealmem boot2 2 := rfl
  rw [ht, cmap_stealmem_chosen boot2 2 0 (by decide) (by decide) (by decide)]
  simp only [tagged]
  by_cases h1 : j = 1
  · subst h1; decide
  · rw [if_neg (by omega)]
    have hb : boot2.tags j = 7 := by
      show zero_tags 2 0 (fun _ => 7) j = 7
      rw [zero_tags_apply, if_neg (by omega)]
    rw [hb]; decide

/-! ### Frame allocator: run accounting -/

theorem frame_of_addr (start s : Nat) : frame_of start (start + (s + 1) * PAGE_SIZE) = s := by
  unfold frame_of PAGE_SIZE; omega

theorem vm_bootstrap_initialized (lo hi : Nat) (mem : Nat → Int) (h1 : lo ≤ hi) (h2 : hi < WORD) :
    initialized (vm_bootstrap lo hi mem) := by
  unfold initialized vm_bootstrap
  refine ⟨rfl, h1, h2, ?_⟩
  simp only
  congr 1
  unfold WORD at *
  omega

theorem layout_boot (lo hi : Nat) (mem : Nat → Int) : Layout (vm_bootstrap lo hi mem) [] := by
  unfold Layout
  refine ⟨fun r hr => absurd hr (List.not_mem_nil r), List.Pairwise.nil, ?_⟩
  intro i hi _
  show zero_tags _ 0 mem i = 0
  rw [zero_tags_apply, if_pos ⟨by omega, by simpa [vm_bootstrap] using hi⟩]

/-- A frame of an outstanding run carries a tag that is at least `1`. -/
theorem layout_covered (st : CoreMap) (runs : List (Nat × Nat)) (hl : Layout st runs)
    (r : Nat × Nat) (hr : r ∈ runs) (i : Nat) (hc : covers st.start r i) :
    st.tags i = ((i - frame_of st.start r.1 : Nat) : Int) + 1 := by
  obtain ⟨-, -, -, ht⟩ := hl.1 r hr
  have := ht (i - frame_of st.start r.1) (by unfold covers at hc; omega)
  have e : frame_of st.start r.1 + (i - frame_of st.start r.1) = i := by
    unfold covers at hc; omega
  rw [e] at this
  exact this

theorem layout_tagged (st : CoreMap) (runs : List (Nat × Nat)) (s n : Nat)
    (hl : Layout st runs) (hn : 1 ≤ n) (hfree : FreeRun st.tags st.size s n) :
    Layout { st with tags := tagged st.tags s n } ((st.start + (s + 1) * PAGE_SIZE, n) :: runs) := by
  have hdisj : ∀ r ∈ runs, ∀ i, covers st.start r i → ¬ (s ≤ i ∧ i < s + n) := by
    intro r hr i hc hi
    have h1 := layout_covered st runs hl r hr i hc
    have h2 := hfree.2 (i - s) (by omega)
    have e : s + (i - s) = i := by omega
    rw [e] at h2
    rw [h2] at h1
    omega
  unfold Layout
  refine ⟨?_, ?_, ?_⟩
  · intro r hr
    rcases List.mem_cons.1 hr with h | h
    · subst h
      simp only [frame_of_addr]
      refine ⟨trivial, hn, hfree.1, ?_⟩
      intro i hi
      simp only [tagged]
      rw [if_pos (by omega)]
      have e : s + i - s + 1 = i + 1 := by omega
      rw [e]; push_cast; rfl
    · obtain ⟨a1, a2, a3, a4⟩ := hl.1 r h
      refine ⟨a1, a2, a3, ?_⟩
      intro i hi
      simp only [tagged]
      rw [if_neg (hdisj r h _ (by unfold covers; omega))]
      exact a4 i hi
  · refine List.pairwise_cons.2 ⟨?_, hl.2.1⟩
    intro b hb i hi
    apply hdisj b hb i hi.2
    have := hi.1
    unfold covers at this
    simp only [frame_of_addr] at this
    exact this
  · intro i hi hcov
    have hnew := hcov _ (List.mem_cons_self _ _)
    unfold covers at hnew
    simp only [frame_of_addr] at hnew
    simp only [tagged]
    rw [if_neg hnew]
    exact hl.2.2 i hi (fun r hr => hcov r (List.mem_cons_of_mem _ hr))

theorem covers_symm (start : Nat) :
    Symmetric (fun a b : Nat × Nat => ∀ i, ¬ (covers start a i ∧ covers start b i)) := by
  intro a b h i hi
  exact h i ⟨hi.2, hi.1⟩

/-- Two different outstanding runs share no frame. -/
theorem layout_disjoint (st : CoreMap) (runs : List (Nat × Nat)) (hl : Layout st runs)
    (a b : Nat × Nat) (ha : a ∈ runs) (hb : b ∈ runs) (hab : a ≠ b) (i : Nat) :
    ¬ (covers st.start a i ∧ covers st.start b i) :=
  List.Pairwise.forall (covers_symm st.start) hl.2.1 ha hb hab i

theorem layout_nodup (st : CoreMap) (runs : List (Nat × Nat)) (hl : Layout st runs) :
    runs.Nodup := by
  unfold List.Nodup
  refine List.Pairwise.imp_of_mem ?_ hl.2.1
  intro a b ha _ hR hab
  subst hab
  obtain ⟨-, h2, -, -⟩ := hl.1 a ha
  exact hR (frame_of st.start a.1) ⟨by unfold covers; omega, by unfold covers; omega⟩

/-- The tag right after an outstanding run, when there is one, is `0` or `1`. -/
theorem layout_next (st : CoreMap) (runs : List (Nat × Nat)) (hl : Layout st runs)
    (r : Nat × Nat) (hr : r ∈ runs) (hlt : frame_of st.start r.1 + r.2 < st.size) :
    st.tags (frame_of st.start r.1 + r.2) = 0 ∨ st.tags (frame_of st.start r.1 + r.2) = 1 := by
  obtain ⟨-, h2, -, -⟩ := hl.1 r hr
  by_cases hc : ∃ b ∈ runs, covers st.start b (frame_of st.start r.1 + r.2)
  · obtain ⟨b, hb, hcb⟩ := hc
    right
    have hne : r ≠ b := by
      intro h; subst h; unfold covers at hcb; omega
    have htag := layout_covered st runs hl b hb _ hcb
    by_cases hfirst : frame_of st.start b.1 = frame_of st.start r.1 + r.2
    · rw [htag, hfirst]; simp
    · exfalso
      apply layout_disjoint st runs hl r b hr hb hne (frame_of st.start r.1 + r.2 - 1)
      unfold covers at hcb ⊢
      omega
  · left
    apply hl.2.2 _ hlt
    intro b hb hcb
    exact hc ⟨b, hb, hcb⟩

theorem layout_cleared (st st' : CoreMap) (runs : List (Nat × Nat)) (hl : Layout st runs)
    (r : Nat × Nat) (hr : r ∈ runs) (hstart : st'.start = st.start) (hsize : st'.size = st.size)
    (htags : ∀ j, j < st.size → st'.tags j = cleared st.tags (frame_of st.start r.1) r.2 j) :
    Layout st' (runs.erase r) := by
  have hnd := layout_nodup st runs hl
  unfold Layout
  rw [hstart, hsize]
  refine ⟨?_, List.Pairwise.sublist (List.erase_sublist r runs) hl.2.1, ?_⟩
  · intro b hb
    obtain ⟨hne, hbm⟩ := (List.Nodup.mem_erase_iff hnd).1 hb
    obtain ⟨a1, a2, a3, a4⟩ := hl.1 b hbm
    refine ⟨a1, a2, a3, ?_⟩
    intro i hi
    rw [htags _ (by omega)]
    unfold cleared
    rw [if_neg]
    · exact a4 i hi
    · intro hin
      apply layout_disjoint st runs hl r b hr hbm (Ne.symm hne) (frame_of st.start b.1 + i)
      unfold covers
      omega
  · intro i hi hcov
    rw [htags i hi]
    unfold cleared
    by_cases hin : frame_of st.start r.1 ≤ i ∧ i < frame_of st.start r.1 + r.2
    · rw [if_pos hin]
    · rw [if_neg hin]
      apply hl.2.2 i hi
      intro b hb
      by_cases hbr : b = r
      · subst hbr; exact hin
      · exact hcov b ((List.Nodup.mem_erase_iff hnd).2 ⟨hbr, hb⟩)

theorem reach_invariant (ram_stealmem : CoreMap → Nat → CoreMap × Nat) (st : CoreMap)
    (runs : List (Nat × Nat)) (h : Reach ram_stealmem st runs) :
    initialized st ∧ Layout st runs := by
  induction h with
  | boot lo hi mem h1 h2 => exact ⟨vm_bootstrap_initialized lo hi mem h1 h2, layout_boot lo hi mem⟩
  | alloc st runs n _ hn ih =>
    obtain ⟨hst, hl⟩ := ih
    have hok : getppages ram_stealmem st n = cmap_stealmem st n := by
      unfold getppages; rw [if_pos hst.1]
    rw [hok]
    rcases cmap_stealmem_spec st n hn with ⟨s, hfree, -, heq⟩ | ⟨-, heq⟩
    · have haddr := run_address st hst s n hn hfree.1
      rw [heq]
      simp only
      rw [haddr.1, if_neg haddr.2.2]
      exact ⟨hst, layout_tagged st runs s n hl hn hfree⟩
    · rw [heq]
      simp only [if_true]
      exact ⟨hst, hl⟩
  | release st st' runs A L fuel _ hr hf ih =>
    obtain ⟨hst, hl⟩ := ih
    obtain ⟨a1, a2, a3, a4⟩ := hl.1 (A, L) hr
    simp only at a1 a2 a3 a4
    rw [a1] at hf
    have hret := free_kpages_returns fuel st st' hst (frame_of st.start A) L a2 a3 a4
      (fun hlt => layout_next st runs hl (A, L) hr hlt) hf
    obtain ⟨b1, b2, b3, b4, b5⟩ := hret
    refine ⟨?_, layout_cleared st st' runs hl (A, L) hr b1 b3 b5⟩
    unfold initialized at hst ⊢
    rw [b1, b2, b3, b4]
    exact hst

/-- C4 (run accounting).  After `vm_bootstrap` and any finite sequence of `getppages(n)`
calls with `n ≥ 1` and of `free_kpages` calls on addresses of outstanding runs, the tag
array is exactly the disjoint union of the outstanding runs: each run lies below `size` and
is tagged `1, …, L` from its first frame, no frame belongs to two runs, and every frame
outside the outstanding runs is tagged `0`.  The calls do return: `getppages` is a total
function, and in every such state `free_kpages` on an outstanding run of length `L` returns
within `L` steps of its loop with exactly that run cleared, provided the run does not end at
the last frame or the word after the tag array is `0` or `1`. -/
theorem run_accounting (ram_stealmem : CoreMap → Nat → CoreMap × Nat) (st : CoreMap)
    (runs : List (Nat × Nat)) (h : Reach ram_stealmem st runs) :
    Layout st runs ∧
    ∀ A L, (A, L) ∈ runs →
      (frame_of st.start A + L < st.size ∨ st.tags st.size = 0 ∨ st.tags st.size = 1) →
      ∀ k, free_kpages (L + k) st (PADDR_TO_KVADDR A)
        = Run.ret { st with tags := cleared st.tags (frame_of st.start A) L } := by
  obtain ⟨hst, hl⟩ := reach_invariant ram_stealmem st runs h
  refine ⟨hl, ?_⟩
  intro A L hr hend k
  obtain ⟨a1, a2, a3, a4⟩ := hl.1 (A, L) hr
  simp only at a1 a2 a3 a4
  have hnext : st.tags (frame_of st.start A + L) = 0 ∨ st.tags (frame_of st.start A + L) = 1 := by
    by_cases hlt : frame_of st.start A + L < st.size
    · exact layout_next st runs hl (A, L) hr hlt
    · have e : frame_of st.start A + L = st.size := by omega
      rw [e]
      rcases hend with h0 | h0
      · exact absurd h0 hlt
      · exact h0
  have := free_kpages_inner_run st hst (frame_of st.start A) L a2 a3 a4 hnext k
  rw [← a1] at this
  exact this

/-- C4, after `vm_bootstrap` on four frames of RAM, `getppages(2)` (tags `1 2 0 0`),
`getppages(1)` (tags `1 2 1 0`), `free_kpages` of the first run, which is followed at once by
the second one (tags `0 0 1 0`), and `getppages(1)` (tags `1 0 1 0`): two runs are
outstanding, and `free_kpages` of the newer one returns with its tag cleared. -/
theorem run_accounting_witness :
    free_kpages 2 hist2 (PADDR_TO_KVADDR 0x41000) = Run.ret hist3 ∧
    (∀ i, i < 4 → hist3.tags i = words [0, 0, 1, 0] 7 i) ∧
    (∀ i, i < 4 → hist4.tags i = words [1, 0, 1, 0] 7 i) ∧
    Layout hist4 [(0x41000, 1), (0x43000, 1)] ∧
    free_kpages 1 hist4 (PADDR_TO_KVADDR 0x41000)
      = Run.ret { hist4 with tags := cleared hist4.tags 0 1 } := by
  have h0 : Reach no_ram pool4 [] :=
    Reach.boot 0x40000 0x44000 (fun _ => 7) (by decide) (by decide)
  have h1 : Reach no_ram hist1 [(0x41000, 2)] := Reach.alloc pool4 [] 2 h0 (by decide)
  have h2 : Reach no_ram hist2 [(0x43000, 1), (0x41000, 2)] :=
    Reach.alloc hist1 [(0x41000, 2)] 1 h1 (by decide)
  have hf : free_kpages 2 hist2 (PADDR_TO_KVADDR 0x41000) = Run.ret hist3 := rfl
  have h3 : Reach no_ram hist3 [(0x43000, 1)] :=
    Reach.release hist2 hist3 [(0x43000, 1), (0x41000, 2)] 0x41000 2 2 h2 (by decide) hf
  have h4 : Reach no_ram hist4 [(0x41000, 1), (0x43000, 1)] :=
    Reach.alloc hist3 [(0x43000, 1)] 1 h3 (by decide)
  have hacc := run_accounting no_ram hist4 [(0x41000, 1), (0x43000, 1)] h4
  exact ⟨hf, by decide, by decide, hacc.1,
    hacc.2 0x41000 1 (by decide) (Or.inl (by decide)) 0⟩

/-! ### Page arithmetic -/

theorem and_page_frame (x : Nat) (hx : x < WORD) : x &&& PAGE_FRAME = x / PAGE_SIZE * PAGE_SIZE := by
  unfold WORD at hx
  unfold PAGE_FRAME PAGE_SIZE
  have e1 : (0xfffff000 : Nat) = (2 ^ 20 - 1) <<< 12 := by decide
  have e2 : x / 4096 = x >>> 12 := by rw [Nat.shiftRight_eq_div_pow]
  have e3 : x / 4096 * 4096 = (x >>> 12) <<< 12 := by rw [Nat.shiftLeft_eq, ← e2]
  apply Nat.eq_of_testBit_eq
  intro i
  rw [e3, e1, Nat.testBit_and, Nat.testBit_shiftLeft, Nat.testBit_shiftLeft,
    Nat.testBit_shiftRight, Nat.testBit_two_pow_sub_one]
  by_cases hi : 12 ≤ i
  · have e4 : 12 + (i - 12) = i := by omega
    rw [e4]
    by_cases h20 : i - 12 < 20
    · simp [hi, h20]
    · have : x.testBit i = false := by
        apply Nat.testBit_lt_two_pow
        calc x < 4294967296 := hx
          _ = 2 ^ 32 := by norm_num
          _ ≤ 2 ^ i := Nat.pow_le_pow_right (by norm_num) (by omega)
      simp [this]
  · simp [hi]

theorem and_page_offset (x : Nat) : x &&& (WORD - 1 - PAGE_FRAME) = x % PAGE_SIZE := by
  have := Nat.and_pow_two_sub_one_eq_mod x 12
  unfold WORD PAGE_FRAME PAGE_SIZE
  simpa using this

theorem aligned_iff (x : Nat) : x &&& PAGE_FRAME = x ↔ x < WORD ∧ x % PAGE_SIZE = 0 := by
  constructor
  · intro h
    have hle : x &&& PAGE_FRAME ≤ PAGE_FRAME := Nat.and_le_right
    have hx : x < WORD := by
      rw [h] at hle
      unfold PAGE_FRAME at hle
      unfold WORD
      omega
    rw [and_page_frame x hx] at h
    unfold PAGE_SIZE at *
    exact ⟨hx, by omega⟩
  · rintro ⟨hx, hm⟩
    rw [and_page_frame x hx]
    unfold PAGE_SIZE at *
    omega

theorem page_mask_aligned (x : Nat) :
    (x &&& PAGE_FRAME) < WORD ∧ (x &&& PAGE_FRAME) % PAGE_SIZE = 0 := by
  apply (aligned_iff _).1
  rw [Nat.and_assoc, Nat.and_self]

/-! ### Fault handler: fault kind and regions -/

/-- C9 (fault-kind validation comes first).  Whatever the faulting address, the current
process, its address space and the TLB, `vm_fault` with kind `VM_FAULT_READONLY` returns
`EFAULT` (it does not panic) and with a kind other than `VM_FAULT_READ`, `VM_FAULT_WRITE`
and `VM_FAULT_READONLY` returns `EINVAL`; the TLB is returned as it was. -/
theorem vm_fault_kind_first (faulttype : Int) (faultaddress : Nat)
    (curproc : Option (Option addrspace)) (tlb : TLB) (random : Nat) :
    (faulttype = VM_FAULT_READONLY →
      vm_fault faulttype faultaddress curproc tlb random = Run.ret (some Errno.EFAULT, tlb)) ∧
    (faulttype ≠ VM_FAULT_READ → faulttype ≠ VM_FAULT_WRITE → faulttype ≠ VM_FAULT_READONLY →
      vm_fault faulttype faultaddress curproc tlb random = Run.ret (some Errno.EINVAL, tlb)) := by
  constructor
  · intro h
    unfold vm_fault
    simp only
    rw [if_pos h]
  · intro h1 h2 h3
    unfold vm_fault
    simp only
    rw [if_neg h3, if_neg (by rintro (h | h); exact h1 h; exact h2 h)]

/-- C9, for kind `VM_FAULT_READONLY` with no current process and for the kind `7` with a
process that has no address space. -/
theorem vm_fault_kind_first_witness :
    vm_fault VM_FAULT_READONLY 0x400000 none full_tlb 3 = Run.ret (some Errno.EFAULT, full_tlb) ∧
    vm_fault 7 0x400000 (some none) full_tlb 3 = Run.ret (some Errno.EINVAL, full_tlb) :=
  ⟨(vm_fault_kind_first VM_FAULT_READONLY 0x400000 none full_tlb 3).1 rfl,
    (vm_fault_kind_first 7 0x400000 (some none) full_tlb 3).2 (by decide) (by decide)
      (by decide)⟩

theorem frames_ok_ne_none (table : Option (List Nat)) (n : Nat) (h : frames_ok table n) :
    table ≠ none := by
  intro e; subst e; exact h

/-- The asserts of `vm_fault` hold for a backed address space. -/
theorem backed_asserts (as : addrspace) (hb : backed as) :
    as.as_vbase1 ≠ 0 ∧ as.as_pbase1 ≠ none ∧ as.as_npages1 ≠ 0 ∧
      as.as_vbase2 ≠ 0 ∧ as.as_pbase2 ≠ none ∧ as.as_npages2 ≠ 0 ∧
      as.as_stackpbase ≠ none ∧
      as.as_vbase1 &&& PAGE_FRAME = as.as_vbase1 ∧
      as.as_vbase2 &&& PAGE_FRAME = as.as_vbase2 := by
  obtain ⟨h1, h2, h3, h4, h5, h6, h7, h8, h9⟩ := hb
  exact ⟨h1, frames_ok_ne_none _ _ h7, h2, h3, frames_ok_ne_none _ _ h8, h4,
    frames_ok_ne_none _ _ h9, h5, h6⟩

/-- A READ or WRITE fault on a backed address space reaches the classification of the
address; what follows is the rest of `vm_fault`. -/
theorem vm_fault_classify (faulttype : Int) (faultaddress : Nat) (as : addrspace) (tlb : TLB)
    (random : Nat) (hft : faulttype = VM_FAULT_READ ∨ faulttype = VM_FAULT_WRITE)
    (hb : backed as) :
    vm_fault faulttype faultaddress (some (some as)) tlb random
      = match fault_region as (faultaddress &&& PAGE_FRAME) with
        | none => Run.ret (some Errno.EFAULT, tlb)
        | some (seg, table, base) =>
          match table.bind (fun l => l[0]?) with
          | none => Run.panic
          | some first =>
            if ((faultaddress &&& PAGE_FRAME) - base + first) % WORD &&& PAGE_FRAME
                = ((faultaddress &&& PAGE_FRAME) - base + first) % WORD then
              match tlb_fill tlb (faultaddress &&& PAGE_FRAME)
                  (entry_lo (((faultaddress &&& PAGE_FRAME) - base + first) % WORD) seg
                    as.loadelf) NUM_TLB 0 with
              | some t => Run.ret (none, t)
              | none =>
                Run.ret (none, Function.update tlb random (faultaddress &&& PAGE_FRAME,
                  entry_lo (((faultaddress &&& PAGE_FRAME) - base + first) % WORD) seg
                    as.loadelf))
            else Run.panic := by
  have hne : faulttype ≠ VM_FAULT_READONLY := by
    rcases hft with h | h <;> · rw [h]; decide
  unfold vm_fault
  simp only
  rw [if_neg hne, if_pos hft, if_pos (backed_asserts as hb)]

/-- C6 (out-of-range faults).  For a backed address space and a READ or WRITE fault whose
page-masked address lies outside `[vbase1, vtop1)`, `[stackbase, stacktop)` and
`[vbase2, vtop2)`, `vm_fault` returns `EFAULT` and the TLB is as it was. -/
theorem vm_fault_out_of_range (faulttype : Int) (faultaddress : Nat) (as : addrspace) (tlb : TLB)
    (random : Nat) (hft : faulttype = VM_FAULT_READ ∨ faulttype = VM_FAULT_WRITE)
    (hb : backed as) (h1 : ¬ in_seg1 as (faultaddress &&& PAGE_FRAME))
    (hs : ¬ in_stack (faultaddress &&& PAGE_FRAME))
    (h2 : ¬ in_seg2 as (faultaddress &&& PAGE_FRAME)) :
    vm_fault faulttype faultaddress (some (some as)) tlb random
      = Run.ret (some Errno.EFAULT, tlb) := by
  rw [vm_fault_classify faulttype faultaddress as tlb random hft hb]
  have hreg : fault_region as (faultaddress &&& PAGE_FRAME) = none := by
    unfold fault_region
    simp only
    rw [if_neg (fun h => h1 ⟨h.2, h.1⟩), if_neg (fun h => hs ⟨h.2, h.1⟩),
      if_neg (fun h => h2 ⟨h.2, h.1⟩)]
  rw [hreg]

/-- C6, the scenario of the specification: a 2-page Segment 1 at `0x400000` and a 1-page
Segment 2 at `0x500000` after `as_prepare_load`.  The first frame of Segment 1 is
`0x41000`; a READ fault at `0x400000` returns `0` and fills slot `0` with an entry for
that frame, and a READ fault at `0x402000` returns `EFAULT` with the TLB unchanged. -/
theorem vm_fault_out_of_range_witness :
    loaded_as boot20 false = some (demo_loaded false) ∧
    ((vm_fault VM_FAULT_READ 0x400000 (some (some (demo_loaded false))) empty_tlb 0).value.map
        (fun r => (r.1, r.2 0)))
      = some (none, (0x400000, 0x41000 ||| TLBLO_DIRTY ||| TLBLO_VALID)) ∧
    vm_fault VM_FAULT_READ 0x402000 (some (some (demo_loaded false))) empty_tlb 0
      = Run.ret (some Errno.EFAULT, empty_tlb) :=
  ⟨by decide, by decide,
    vm_fault_out_of_range VM_FAULT_READ 0x402000 (demo_loaded false) empty_tlb 0 (Or.inl rfl)
      (by decide) (by decide) (by decide) (by decide)⟩

/-! ### Address-space regions -/

theorem define_region_pages (vaddr sz : Nat) (h : vaddr + sz + PAGE_SIZE < WORD) :
    ((((sz + (vaddr &&& (WORD - 1 - PAGE_FRAME))) % WORD + PAGE_SIZE - 1) % WORD) &&& PAGE_FRAME)
        / PAGE_SIZE
      = (sz + vaddr % PAGE_SIZE + PAGE_SIZE - 1) / PAGE_SIZE := by
  rw [and_page_offset]
  have h1 : (sz + vaddr % PAGE_SIZE) % WORD = sz + vaddr % PAGE_SIZE := by
    unfold PAGE_SIZE WORD at *; omega
  have h2 : (sz + vaddr % PAGE_SIZE + PAGE_SIZE - 1) % WORD = sz + vaddr % PAGE_SIZE + PAGE_SIZE - 1 := by
    unfold PAGE_SIZE WORD at *; omega
  rw [h1, h2, and_page_frame _ (by unfold PAGE_SIZE WORD at *; omega)]
  unfold PAGE_SIZE
  omega

/-- C10 (`as_define_region` alignment).  When `vaddr + sz + PAGE_SIZE` does not overflow
32 bits, a call that returns `0` records, in the slot it fills, the base `vaddr` rounded
down to a multiple of `PAGE_SIZE` and the page count
`⌈(sz + vaddr mod PAGE_SIZE) / PAGE_SIZE⌉`; the recorded range contains
`[vaddr, vaddr + sz)` and lies inside every page-aligned range that does. -/
theorem as_define_region_alignment (kmalloc : Nat → Option (List Nat)) (as : addrspace)
    (vaddr sz : Nat) (h : vaddr + sz + PAGE_SIZE < WORD)
    (hret : (as_define_region kmalloc as vaddr sz).2 = none) :
    ((as.as_vbase1 = 0 ∧
        (as_define_region kmalloc as vaddr sz).1.as_vbase1 = vaddr / PAGE_SIZE * PAGE_SIZE ∧
        (as_define_region kmalloc as vaddr sz).1.as_npages1
          = (sz + vaddr % PAGE_SIZE + PAGE_SIZE - 1) / PAGE_SIZE) ∨
      (as.as_vbase1 ≠ 0 ∧ as.as_vbase2 = 0 ∧
        (as_define_region kmalloc as vaddr sz).1.as_vbase2 = vaddr / PAGE_SIZE * PAGE_SIZE ∧
        (as_define_region kmalloc as vaddr sz).1.as_npages2
          = (sz + vaddr % PAGE_SIZE + PAGE_SIZE - 1) / PAGE_SIZE)) ∧
    (vaddr / PAGE_SIZE * PAGE_SIZE ≤ vaddr ∧
      vaddr + sz ≤ vaddr / PAGE_SIZE * PAGE_SIZE
        + (sz + vaddr % PAGE_SIZE + PAGE_SIZE - 1) / PAGE_SIZE * PAGE_SIZE) ∧
    (∀ b c, b % PAGE_SIZE = 0 → b ≤ vaddr → vaddr + sz ≤ b + c * PAGE_SIZE →
      b ≤ vaddr / PAGE_SIZE * PAGE_SIZE ∧
      vaddr / PAGE_SIZE * PAGE_SIZE
          + (sz + vaddr % PAGE_SIZE + PAGE_SIZE - 1) / PAGE_SIZE * PAGE_SIZE
        ≤ b + c * PAGE_SIZE) := by
  have hv : vaddr &&& PAGE_FRAME = vaddr / PAGE_SIZE * PAGE_SIZE :=
    and_page_frame vaddr (by unfold PAGE_SIZE WORD at *; omega)
  have hn := define_region_pages vaddr sz h
  refine ⟨?_, ?_, ?_⟩
  · unfold as_define_region at hret ⊢
    simp only at hret ⊢
    by_cases h1 : as.as_vbase1 = 0
    · left
      rw [if_pos h1]
      exact ⟨h1, hv, hn⟩
    · right
      rw [if_neg h1] at hret ⊢
      by_cases h2 : as.as_vbase2 = 0
      · rw [if_pos h2]
        exact ⟨h1, h2, hv, hn⟩
      · rw [if_neg h2] at hret
        cases hret
  · unfold PAGE_SIZE at *
    omega
  · intro b c hb hle hin
    unfold PAGE_SIZE at *
    omega

/-- C10, for `vaddr = 0x400123` and `sz = 0x2000` on a new address space: Segment 1
gets base `0x400000` and `3` pages. -/
theorem as_define_region_alignment_witness :
    (as_define_region (heap 0) (as_create false) 0x400123 0x2000).1.as_vbase1 = 0x400000 ∧
    (as_define_region (heap 0) (as_create false) 0x400123 0x2000).1.as_npages1 = 3 := by
  have h := (as_define_region_alignment (heap 0) (as_create false) 0x400123 0x2000
    (by decide) (by decide)).1
  rcases h with ⟨-, h1, h2⟩ | ⟨h0, -⟩
  · exact ⟨h1, h2⟩
  · exact absurd rfl h0

/-! ### Fault handler: the installed entry -/

theorem tlb_fill_spec (tlb : TLB) (ehi elo : Nat) :
    ∀ (k i : Nat),
      (∀ t, tlb_fill tlb ehi elo k i = some t →
        ∃ j, i ≤ j ∧ j < i + k ∧ (tlb j).2 &&& TLBLO_VALID = 0 ∧
          (∀ j', i ≤ j' → j' < j → (tlb j').2 &&& TLBLO_VALID ≠ 0) ∧
          t = Function.update tlb j (ehi, elo)) ∧
      (tlb_fill tlb ehi elo k i = none →
        ∀ j, i ≤ j → j < i + k → (tlb j).2 &&& TLBLO_VALID ≠ 0) := by
  intro k
  induction k with
  | zero =>
    intro i
    refine ⟨fun t h => by simp [tlb_fill] at h, fun _ j h1 h2 => by omega⟩
  | succ k ih =>
    intro i
    rw [tlb_fill]
    by_cases hv : (tlb i).2 &&& TLBLO_VALID ≠ 0
    · rw [if_pos hv]
      obtain ⟨ih1, ih2⟩ := ih (i + 1)
      constructor
      · intro t ht
        obtain ⟨j, a1, a2, a3, a4, a5⟩ := ih1 t ht
        refine ⟨j, by omega, by omega, a3, ?_, a5⟩
        intro j' b1 b2
        by_cases e : j' = i
        · subst e; exact hv
        · exact a4 j' (by omega) b2
      · intro hn j b1 b2
        by_cases e : j = i
        · subst e; exact hv
        · exact ih2 hn j (by omega) (by omega)
    · rw [if_neg hv]
      constructor
      · intro t ht
        cases ht
        exact ⟨i, le_refl _, by omega, not_not.1 hv, fun j' b1 b2 => by omega, rfl⟩
      · intro hn; cases hn

theorem fault_region_eq (as : addrspace) (a : Nat) :
    fault_region as a
      = if in_seg1 as a then some (true, as.as_pbase1, as.as_vbase1)
        else if in_stack a then
          some (false, as.as_stackpbase, USERSTACK - DUMBVM_STACKPAGES * PAGE_SIZE)
        else if in_seg2 as a then some (false, as.as_pbase2, as.as_vbase2)
        else none := by
  unfold fault_region in_seg1 in_stack in_seg2
  simp only [ge_iff_le, and_comm]

theorem frames_ok_first (table : Option (List Nat)) (n : Nat) (h : frames_ok table n)
    (hn : n ≠ 0) :
    ∃ first, table.bind (fun l => l[0]?) = some first ∧ first &&& PAGE_FRAME = first := by
  cases table with
  | none => exact absurd h (by unfold frames_ok; simp)
  | some l =>
    unfold frames_ok at h
    simp only at h
    cases l with
    | nil => exact absurd h.1.symm (by simpa using hn)
    | cons a t => exact ⟨a, by simp, h.2 a (List.mem_cons_self _ _)⟩

/-- For a page-aligned address inside one of the three regions of a backed address space
the classification succeeds, and the table it selects has a page-aligned first entry. -/
theorem fault_region_backed (as : addrspace) (a : Nat) (hb : backed as)
    (ha : a % PAGE_SIZE = 0) (hin : in_seg1 as a ∨ in_stack a ∨ in_seg2 as a) :
    ∃ table base first,
      fault_region as a = some (decide (in_seg1 as a), table, base) ∧
      table.bind (fun l => l[0]?) = some first ∧
      ((a - base + first) % WORD) &&& PAGE_FRAME = (a - base + first) % WORD := by
  obtain ⟨h1, h2, h3, h4, h5, h6, h7, h8, h9⟩ := hb
  have hal : ∀ base first, base ≤ a → base % PAGE_SIZE = 0 → first &&& PAGE_FRAME = first →
      ((a - base + first) % WORD) &&& PAGE_FRAME = (a - base + first) % WORD := by
    intro base first hle hbase hfirst
    have hf := (aligned_iff first).1 hfirst
    apply (aligned_iff _).2
    unfold PAGE_SIZE WORD at *
    omega
  rw [fault_region_eq]
  by_cases c1 : in_seg1 as a
  · obtain ⟨first, hf1, hf2⟩ := frames_ok_first _ _ h7 h2
    refine ⟨as.as_pbase1, as.as_vbase1, first, by rw [if_pos c1]; simp [c1], hf1, ?_⟩
    exact hal _ _ c1.1 ((aligned_iff _).1 h5).2 hf2
  · rw [if_neg c1]
    by_cases c2 : in_stack a
    · obtain ⟨first, hf1, hf2⟩ := frames_ok_first _ _ h9 (by decide)
      refine ⟨as.as_stackpbase, USERSTACK - DUMBVM_STACKPAGES * PAGE_SIZE, first,
        by rw [if_pos c2]; simp [c1], hf1, ?_⟩
      exact hal _ _ c2.1 (by decide) hf2
    · rw [if_neg c2]
      have c3 : in_seg2 as a := by
        rcases hin with h | h | h
        · exact absurd h c1
        · exact absurd h c2
        · exact h
      obtain ⟨first, hf1, hf2⟩ := frames_ok_first _ _ h8 h4
      refine ⟨as.as_pbase2, as.as_vbase2, first, by rw [if_pos c3]; simp [c1], hf1, ?_⟩
      exact hal _ _ c3.1 ((aligned_iff _).1 h6).2 hf2

/-- A READ or WRITE fault inside a region of a backed address space returns `0` after
writing one slot with the faulting page and the `entrylo` word built for it. -/
theorem vm_fault_handled (faulttype : Int) (faultaddress : Nat) (as : addrspace) (tlb : TLB)
    (random : Nat) (hft : faulttype = VM_FAULT_READ ∨ faulttype = VM_FAULT_WRITE)
    (hb : backed as)
    (hin : in_seg1 as (faultaddress &&& PAGE_FRAME) ∨ in_stack (faultaddress &&& PAGE_FRAME) ∨
      in_seg2 as (faultaddress &&& PAGE_FRAME)) :
    ∃ slot paddr, slot_chosen tlb random slot ∧
      vm_fault faulttype faultaddress (some (some as)) tlb random
        = Run.ret (none, Function.update tlb slot (faultaddress &&& PAGE_FRAME,
            entry_lo paddr (decide (in_seg1 as (faultaddress &&& PAGE_FRAME))) as.loadelf)) := by
  obtain ⟨table, base, first, hreg, hfirst, hal⟩ :=
    fault_region_backed as (faultaddress &&& PAGE_FRAME) hb (page_mask_aligned _).2 hin
  rw [vm_fault_classify faulttype faultaddress as tlb random hft hb, hreg]
  simp only
  rw [hfirst]
  simp only
  rw [if_pos hal]
  obtain ⟨hs, hn⟩ := tlb_fill_spec tlb (faultaddress &&& PAGE_FRAME)
    (entry_lo (((faultaddress &&& PAGE_FRAME) - base + first) % WORD)
      (decide (in_seg1 as (faultaddress &&& PAGE_FRAME))) as.loadelf) NUM_TLB 0
  cases hfill : tlb_fill tlb (faultaddress &&& PAGE_FRAME)
    (entry_lo (((faultaddress &&& PAGE_FRAME) - base + first) % WORD)
      (decide (in_seg1 as (faultaddress &&& PAGE_FRAME))) as.loadelf) NUM_TLB 0 with
  | some t =>
    obtain ⟨j, a1, a2, a3, a4, a5⟩ := hs t hfill
    refine ⟨j, ((faultaddress &&& PAGE_FRAME) - base + first) % WORD,
      Or.inl ⟨by omega, a3, fun j' hj' => a4 j' (by omega) hj'⟩, ?_⟩
    simp only
    rw [a5]
  | none =>
    exact ⟨random, ((faultaddress &&& PAGE_FRAME) - base + first) % WORD,
      Or.inr ⟨fun j hj => hn hfill j (by omega) (by omega), rfl⟩, rfl⟩

theorem entry_lo_valid (paddr : Nat) (seg loadelf : Bool) :
    entry_lo paddr seg loadelf &&& TLBLO_VALID ≠ 0 := by
  intro h
  have h9 : Nat.testBit 512 9 = true := by decide
  have h8 : Nat.testBit 4294966271 9 = true := by decide
  have := congrArg (fun n => n.testBit 9) h
  unfold entry_lo TLBLO_VALID TLBLO_DIRTY WORD at this
  by_cases c : (seg && loadelf) = true
  · rw [if_pos c] at this
    simp [Nat.testBit_and, Nat.testBit_or, h9, h8] at this
  · rw [if_neg c] at this
    simp [Nat.testBit_and, Nat.testBit_or, h9] at this

theorem entry_lo_readonly (paddr : Nat) : entry_lo paddr true true &&& TLBLO_DIRTY = 0 := by
  show ((paddr ||| TLBLO_DIRTY ||| TLBLO_VALID) &&& (WORD - 1 - TLBLO_DIRTY)) &&& TLBLO_DIRTY = 0
  rw [Nat.and_assoc]
  have : (WORD - 1 - TLBLO_DIRTY) &&& TLBLO_DIRTY = 0 := by decide
  rw [this, Nat.and_zero]

theorem entry_lo_writable (paddr : Nat) (seg loadelf : Bool) (h : (seg && loadelf) = false) :
    entry_lo paddr seg loadelf &&& TLBLO_DIRTY ≠ 0 := by
  intro h0
  have h10 : Nat.testBit 1024 10 = true := by decide
  have := congrArg (fun n => n.testBit 10) h0
  unfold entry_lo TLBLO_VALID TLBLO_DIRTY at this
  rw [h] at this
  simp [Nat.testBit_and, Nat.testBit_or, h10] at this

/-! ### Fault handler: claims about the installed entry -/

/-- C5 at its failing input.  The allocator state `frag20` (frame of tag `1` in use) is
what `vm_bootstrap`, two `getppages(1)` and `free_kpages` of the first page leave.
`as_prepare_load` on it records the frames `0x41000, 0x43000` for the two pages of
Segment 1.  A READ fault on page `1` of Segment 1 (`0x401000`) returns `0` and writes
the frame `0x42000 = as_pbase1[0] + PAGE_SIZE` into the TLB entry, not `as_pbase1[1]`. -/
theorem vm_fault_second_page_frame :
    (∃ st', free_kpages 1 (getppages no_ram (getppages no_ram boot20 1).1 1).1
        (PADDR_TO_KVADDR (getppages no_ram boot20 1).2) = Run.ret st' ∧
      st'.start = frag20.start ∧ st'.end_ = frag20.end_ ∧ st'.size = frag20.size ∧
      st'.ok = frag20.ok ∧ ∀ i, i < 20 → st'.tags i = frag20.tags i) ∧
    loaded_as frag20 false = some (frag_loaded false) ∧
    (frag_loaded false).as_pbase1 = some [0x41000, 0x43000] ∧
    in_seg1 (frag_loaded false) (0x401000 &&& PAGE_FRAME) ∧
    (0x401000 &&& PAGE_FRAME) = (frag_loaded false).as_vbase1 + 1 * PAGE_SIZE ∧
    ((vm_fault VM_FAULT_READ 0x401000 (some (some (frag_loaded false))) empty_tlb 0).value.map
        (fun r => (r.1, r.2 0)))
      = some (none, (0x401000, 0x42000 ||| TLBLO_DIRTY ||| TLBLO_VALID)) ∧
    ((vm_fault VM_FAULT_READ 0x401000 (some (some (frag_loaded false))) empty_tlb 0).value.map
        (fun r => (r.2 0).2 &&& PAGE_FRAME))
      = some 0x42000 := by
  refine ⟨⟨_, rfl, by decide, by decide, by decide, by decide, by decide⟩, by decide, by decide,
    by decide, by decide, by decide, by decide⟩

/-- C7 (read-only enforcement, installed entry).  For a READ or WRITE fault on a backed
address space: on a page of Segment 1 while `loadelf` is set, `vm_fault` returns `0` and
the entry it writes, into the invalid slot found or into the hardware-chosen slot, has
`TLBLO_VALID` set and `TLBLO_DIRTY` clear; on a stack or Segment 2 page (one that the
handler does not classify as Segment 1), and on any page of the three regions while
`loadelf` is clear, the entry written has both bits set. -/
theorem vm_fault_entry_bits (faulttype : Int) (faultaddress : Nat) (as : addrspace) (tlb : TLB)
    (random : Nat) (hft : faulttype = VM_FAULT_READ ∨ faulttype = VM_FAULT_WRITE)
    (hb : backed as) :
    (in_seg1 as (faultaddress &&& PAGE_FRAME) → as.loadelf = true →
      ∃ slot elo, slot_chosen tlb random slot ∧
        vm_fault faulttype faultaddress (some (some as)) tlb random
          = Run.ret (none, Function.update tlb slot (faultaddress &&& PAGE_FRAME, elo)) ∧
        elo &&& TLBLO_VALID ≠ 0 ∧ elo &&& TLBLO_DIRTY = 0) ∧
    (((¬ in_seg1 as (faultaddress &&& PAGE_FRAME) ∧
          (in_stack (faultaddress &&& PAGE_FRAME) ∨ in_seg2 as (faultaddress &&& PAGE_FRAME))) ∨
        (as.loadelf = false ∧
          (in_seg1 as (faultaddress &&& PAGE_FRAME) ∨ in_stack (faultaddress &&& PAGE_FRAME) ∨
            in_seg2 as (faultaddress &&& PAGE_FRAME)))) →
      ∃ slot elo, slot_chosen tlb random slot ∧
        vm_fault faulttype faultaddress (some (some as)) tlb random
          = Run.ret (none, Function.update tlb slot (faultaddress &&& PAGE_FRAME, elo)) ∧
        elo &&& TLBLO_VALID ≠ 0 ∧ elo &&& TLBLO_DIRTY ≠ 0) := by
  constructor
  · intro hin hro
    obtain ⟨slot, paddr, hslot, heq⟩ :=
      vm_fault_handled faulttype faultaddress as tlb random hft hb (Or.inl hin)
    refine ⟨slot, _, hslot, heq, entry_lo_valid _ _ _, ?_⟩
    rw [hro, decide_eq_true hin]
    exact entry_lo_readonly paddr
  · intro h
    have hin : in_seg1 as (faultaddress &&& PAGE_FRAME) ∨ in_stack (faultaddress &&& PAGE_FRAME) ∨
        in_seg2 as (faultaddress &&& PAGE_FRAME) := by
      rcases h with ⟨-, h | h⟩ | ⟨-, h⟩
      · exact Or.inr (Or.inl h)
      · exact Or.inr (Or.inr h)
      · exact h
    obtain ⟨slot, paddr, hslot, heq⟩ :=
      vm_fault_handled faulttype faultaddress as tlb random hft hb hin
    refine ⟨slot, _, hslot, heq, entry_lo_valid _ _ _, entry_lo_writable _ _ _ ?_⟩
    rcases h with ⟨h1, -⟩ | ⟨h1, -⟩
    · rw [decide_eq_false h1]; rfl
    · rw [h1]; simp

/-- C7, for a READ fault at `0x400abc` (Segment 1, `loadelf` set) when every TLB slot is
valid and the hardware picks slot `5`. -/
theorem vm_fault_entry_bits_witness :
    ∃ slot elo, slot_chosen full_tlb 5 slot ∧
      vm_fault VM_FAULT_READ 0x400abc (some (some (demo_loaded true))) full_tlb 5
        = Run.ret (none, Function.update full_tlb slot (0x400abc &&& PAGE_FRAME, elo)) ∧
      elo &&& TLBLO_VALID ≠ 0 ∧ elo &&& TLBLO_DIRTY = 0 :=
  (vm_fault_entry_bits VM_FAULT_READ 0x400abc (demo_loaded true) full_tlb 5 (Or.inl rfl)
    (by decide)).1 (by decide) rfl

/-- C8 as written fails: with `loadelf` set, after a READ fault on page `0` of Segment 1
has been handled, `vm_fault` called with kind `VM_FAULT_WRITE` on the same page returns
`0`, not `EFAULT`. -/
theorem vm_fault_write_kind_counterexample :
    backed (demo_loaded true) ∧ (demo_loaded true).loadelf = true ∧
    in_seg1 (demo_loaded true) (0x400000 &&& PAGE_FRAME) ∧
    ∃ t1, vm_fault VM_FAULT_READ 0x400000 (some (some (demo_loaded true))) empty_tlb 0
        = Run.ret (none, t1) ∧
      (vm_fault VM_FAULT_WRITE 0x400000 (some (some (demo_loaded true))) t1 0).value.map
        (fun r => r.1) = some none ∧
      (vm_fault VM_FAULT_WRITE 0x400000 (some (some (demo_loaded true))) t1 0).value.map
        (fun r => r.1) ≠ some (some Errno.EFAULT) :=
  ⟨by decide, rfl, by decide, _, rfl, by decide, by decide⟩

/-- C8 (amended).  With `loadelf` set, a READ fault on a Segment 1 page of a backed
address space is handled (returns `0`); after it, a call of `vm_fault` on the same page
with kind `VM_FAULT_READONLY` returns `EFAULT` and leaves the TLB alone, and a call with
kind `VM_FAULT_WRITE` returns `0` after writing one more entry for the page whose
`TLBLO_DIRTY` bit is clear, so the write is still not enabled. -/
theorem vm_fault_write_after_read (faultaddress : Nat) (as : addrspace) (tlb : TLB)
    (random random' : Nat) (hb : backed as) (hro : as.loadelf = true)
    (hin : in_seg1 as (faultaddress &&& PAGE_FRAME)) :
    ∃ t1, vm_fault VM_FAULT_READ faultaddress (some (some as)) tlb random = Run.ret (none, t1) ∧
      vm_fault VM_FAULT_READONLY faultaddress (some (some as)) t1 random'
        = Run.ret (some Errno.EFAULT, t1) ∧
      ∃ slot elo, slot_chosen t1 random' slot ∧
        vm_fault VM_FAULT_WRITE faultaddress (some (some as)) t1 random'
          = Run.ret (none, Function.update t1 slot (faultaddress &&& PAGE_FRAME, elo)) ∧
        elo &&& TLBLO_VALID ≠ 0 ∧ elo &&& TLBLO_DIRTY = 0 := by
  obtain ⟨slot, paddr, -, heq⟩ :=
    vm_fault_handled VM_FAULT_READ faultaddress as tlb random (Or.inl rfl) hb (Or.inl hin)
  refine ⟨_, heq, ?_, ?_⟩
  · unfold vm_fault
    simp only [if_true]
  · obtain ⟨slot', paddr', hslot', heq'⟩ :=
      vm_fault_handled VM_FAULT_WRITE faultaddress as
        (Function.update tlb slot (faultaddress &&& PAGE_FRAME,
          entry_lo paddr (decide (in_seg1 as (faultaddress &&& PAGE_FRAME))) as.loadelf))
        random' (Or.inr rfl) hb (Or.inl hin)
    refine ⟨slot', _, hslot', heq', entry_lo_valid _ _ _, ?_⟩
    rw [hro, decide_eq_true hin]
    exact entry_lo_readonly paddr'

/-- C8 (amended), for page `0` of Segment 1 of the address space of the scenario with
`loadelf` set, starting from an empty TLB. -/
theorem vm_fault_write_after_read_witness :
    ∃ t1, vm_fault VM_FAULT_READ 0x400000 (some (some (demo_loaded true))) empty_tlb 0
        = Run.ret (none, t1) ∧
      vm_fault VM_FAULT_READONLY 0x400000 (some (some (demo_loaded true))) t1 0
        = Run.ret (some Errno.EFAULT, t1) ∧
      ∃ slot elo, slot_chosen t1 0 slot ∧
        vm_fault VM_FAULT_WRITE 0x400000 (some (some (demo_loaded true))) t1 0
          = Run.ret (none, Function.update t1 slot (0x400000 &&& PAGE_FRAME, elo)) ∧
        elo &&& TLBLO_VALID ≠ 0 ∧ elo &&& TLBLO_DIRTY = 0 :=
  vm_fault_write_after_read 0x400000 (demo_loaded true) empty_tlb 0 0 (by decide) rfl
    (by decide)

/-! ### Region definition: limit and order -/

theorem define_region_first (kmalloc : Nat → Option (List Nat)) (as : addrspace)
    (vaddr sz : Nat) (h : as.as_vbase1 = 0) :
    as_define_region kmalloc as vaddr sz
      = ({ as with
            as_pbase1 := kmalloc (region_npages vaddr sz), as_vbase1 := vaddr &&& PAGE_FRAME,
            as_npages1 := region_npages vaddr sz }, none) := by
  unfold as_define_region region_npages
  simp only
  rw [if_pos h]

theorem define_region_second (kmalloc : Nat → Option (List Nat)) (as : addrspace)
    (vaddr sz : Nat) (h1 : as.as_vbase1 ≠ 0) (h2 : as.as_vbase2 = 0) :
    as_define_region kmalloc as vaddr sz
      = ({ as with
            as_pbase2 := kmalloc (region_npages vaddr sz), as_vbase2 := vaddr &&& PAGE_FRAME,
            as_npages2 := region_npages vaddr sz }, none) := by
  unfold as_define_region region_npages
  simp only
  rw [if_neg h1, if_pos h2]

theorem as_define_region_full (kmalloc : Nat → Option (List Nat)) (as : addrspace)
    (vaddr sz : Nat) (h1 : as.as_vbase1 ≠ 0) (h2 : as.as_vbase2 ≠ 0) :
    as_define_region kmalloc as vaddr sz = (as, some Errno.EUNIMP) := by
  unfold as_define_region
  simp only
  rw [if_neg h1, if_neg h2]

/-- C11 as written fails: on a new address space the calls `vaddr = 0x400000` (2 pages) and
`vaddr = 0x10` (2 pages) both return `0` and leave both segments recorded, Segment 2 with
its page count, its frame table and the base `0`.  A further call (`vaddr = 0x600000`,
1 page) returns `0`, not `EUNIMP`, and overwrites the base, the page count and the table of
Segment 2. -/
theorem as_define_region_limit_counterexample :
    (as_define_region (heap 0) (as_create false) 0x400000 0x2000).2 = none ∧
    as_define_region (heap 0)
        (as_define_region (heap 0) (as_create false) 0x400000 0x2000).1 0x10 0x1000
      = ({ as_vbase1 := 0x400000, as_pbase1 := some [0, 0], as_npages1 := 2,
           as_vbase2 := 0, as_pbase2 := some [0, 0], as_npages2 := 2,
           as_stackpbase := none, loadelf := false }, none) ∧
    as_define_region (heap 9)
        (as_define_region (heap 0)
          (as_define_region (heap 0) (as_create false) 0x400000 0x2000).1 0x10 0x1000).1
        0x600000 0x1000
      = ({ as_vbase1 := 0x400000, as_pbase1 := some [0, 0], as_npages1 := 2,
           as_vbase2 := 0x600000, as_pbase2 := some [9], as_npages2 := 1,
           as_stackpbase := none, loadelf := false }, none) := by
  decide

/-- C11 (amended).  When both segments are recorded with a base other than `0` (the test
`as_define_region` makes for a slot in use), a further call with any arguments returns
`EUNIMP` and the address space, every field of it, is returned as it was. -/
theorem as_define_region_limit (kmalloc : Nat → Option (List Nat)) (as : addrspace)
    (vaddr sz : Nat) (h1 : as.as_vbase1 ≠ 0) (h2 : as.as_vbase2 ≠ 0) :
    as_define_region kmalloc as vaddr sz = (as, some Errno.EUNIMP) := by
  unfold as_define_region
  simp only
  rw [if_neg h1, if_neg h2]

/-- C11, for a third call on the address space of the scenario. -/
theorem as_define_region_limit_witness :
    as_define_region (heap 0) (demo_as false) 0x600000 0x3000
      = (demo_as false, some Errno.EUNIMP) :=
  as_define_region_limit (heap 0) (demo_as false) 0x600000 0x3000 (by decide) (by decide)

/-- C12 as written fails: on a new address space a first call with `vaddr = 0x10` leaves
`as_vbase1 = 0`, the second call (`vaddr = 0x500000`) is recorded over Segment 1 and not
as Segment 2, and the third call (`vaddr = 0x600000`) returns `0`. -/
theorem as_define_region_page_zero_counterexample :
    (as_define_region (heap 0) (as_create false) 0x10 0x1000).2 = none ∧
    (as_define_region (heap 0) (as_create false) 0x10 0x1000).1.as_vbase1 = 0 ∧
    (as_define_region (heap 0) (as_create false) 0x10 0x1000).1.as_npages1 = 2 ∧
    (as_define_region (heap 0)
      (as_define_region (heap 0) (as_create false) 0x10 0x1000).1 0x500000 0x1000).1.as_npages1
      = 1 ∧
    (as_define_region (heap 0)
      (as_define_region (heap 0) (as_create false) 0x10 0x1000).1 0x500000 0x1000).1.as_vbase2
      = 0 ∧
    (as_define_region (heap 0)
      (as_define_region (heap 0)
        (as_define_region (heap 0) (as_create false) 0x10 0x1000).1 0x500000 0x1000).1
      0x600000 0x1000).2 = none := by
  decide

/-- C12 (amended).  For three `as_define_region` calls on a new address space in which the
first two addresses are not in page `0` (their page-aligned bases are non-zero): the first
call is recorded as Segment 1, the second as Segment 2 with Segment 1 left as the first
call recorded it, and the third call returns `EUNIMP` and changes nothing. -/
theorem as_define_region_three_calls (kmalloc : Nat → Option (List Nat)) (loadelf : Bool)
    (v1 s1 v2 s2 v3 s3 : Nat) (h1 : v1 &&& PAGE_FRAME ≠ 0) (h2 : v2 &&& PAGE_FRAME ≠ 0) :
    as_define_region kmalloc (as_create loadelf) v1 s1
      = ({ as_create loadelf with
            as_pbase1 := kmalloc (region_npages v1 s1), as_vbase1 := v1 &&& PAGE_FRAME,
            as_npages1 := region_npages v1 s1 }, none) ∧
    as_define_region kmalloc (as_define_region kmalloc (as_create loadelf) v1 s1).1 v2 s2
      = ({ as_create loadelf with
            as_pbase1 := kmalloc (region_npages v1 s1), as_vbase1 := v1 &&& PAGE_FRAME,
            as_npages1 := region_npages v1 s1,
            as_pbase2 := kmalloc (region_npages v2 s2), as_vbase2 := v2 &&& PAGE_FRAME,
            as_npages2 := region_npages v2 s2 }, none) ∧
    as_define_region kmalloc
        (as_define_region kmalloc (as_define_region kmalloc (as_create loadelf) v1 s1).1 v2 s2).1
        v3 s3
      = ((as_define_region kmalloc (as_define_region kmalloc (as_create loadelf) v1 s1).1 v2 s2).1,
          some Errno.EUNIMP) := by
  have e1 := define_region_first kmalloc (as_create loadelf) v1 s1 rfl
  have e2 := define_region_second kmalloc (as_define_region kmalloc (as_create loadelf) v1 s1).1
    v2 s2 (by rw [e1]; exact h1) (by rw [e1]; rfl)
  refine ⟨e1, ?_, ?_⟩
  · rw [e2, e1]
  · apply as_define_region_full
    · rw [e2, e1]; exact h1
    · rw [e2]; exact h2

/-- C12 (amended), for the three calls `0x400000`, `0x500000`, `0x600000`: the third
returns `EUNIMP`. -/
theorem as_define_region_three_calls_witness :
    as_define_region (heap 0)
        (as_define_region (heap 0)
          (as_define_region (heap 0) (as_create false) 0x400000 0x2000).1 0x500000 0x1000).1
        0x600000 0x1000
      = ((as_define_region (heap 0)
          (as_define_region (heap 0) (as_create false) 0x400000 0x2000).1 0x500000 0x1000).1,
          some Errno.EUNIMP) :=
  (as_define_region_three_calls (heap 0) false 0x400000 0x2000 0x500000 0x1000 0x600000 0x1000
    (by decide) (by decide)).2.2

/-! ### Activation -/

theorem flush_loop_apply (k i : Nat) (tlb : TLB) (j : Nat) :
    flush_loop k i tlb j
      = if i ≤ j ∧ j < i + k then (TLBHI_INVALID j, TLBLO_INVALID) else tlb j := by
  induction k generalizing i tlb with
  | zero => rw [flush_loop, if_neg (by omega)]
  | succ k ih =>
    rw [flush_loop, ih]
    by_cases h1 : j = i
    · subst h1; simp
    · rw [Function.update_noteq h1]
      by_cases h2 : i ≤ j ∧ j < i + (k + 1)
      · rw [if_pos h2, if_pos (by omega)]
      · rw [if_neg h2, if_neg (by omega)]

/-- C16 as written fails: when the current process has no address space (or there is no
current process) `as_activate` returns without touching the TLB, so a valid slot stays
valid. -/
theorem as_activate_no_as_counterexample :
    (as_activate (some none) full_tlb 0).2 &&& TLBLO_VALID ≠ 0 ∧
    (as_activate none full_tlb 0).2 &&& TLBLO_VALID ≠ 0 := by
  decide

/-- C16 (amended).  For every TLB state, when the current process has an address space,
after `as_activate` every slot `i < NUM_TLB` holds the invalid entry for `i`, whose valid
bit is clear; when there is no current process or it has no address space `as_activate`
leaves the TLB as it was. -/
theorem as_activate_flush (tlb : TLB) :
    (∀ (as : addrspace) (i : Nat), i < NUM_TLB →
      as_activate (some (some as)) tlb i = (TLBHI_INVALID i, TLBLO_INVALID) ∧
      (as_activate (some (some as)) tlb i).2 &&& TLBLO_VALID = 0) ∧
    as_activate none tlb = tlb ∧ as_activate (some none) tlb = tlb := by
  refine ⟨?_, rfl, rfl⟩
  intro as i hi
  have h : as_activate (some (some as)) tlb i = (TLBHI_INVALID i, TLBLO_INVALID) := by
    show flush_loop NUM_TLB 0 tlb i = _
    rw [flush_loop_apply, if_pos (by omega)]
  refine ⟨h, ?_⟩
  rw [h]
  show TLBLO_INVALID &&& TLBLO_VALID = 0
  decide

/-- C16 (amended), for slot `63` of a TLB in which every slot is valid. -/
theorem as_activate_flush_witness :
    as_activate (some (some (demo_loaded false))) full_tlb 63 = (TLBHI_INVALID 63, TLBLO_INVALID) ∧
    (as_activate (some (some (demo_loaded false))) full_tlb 63).2 &&& TLBLO_VALID = 0 :=
  (as_activate_flush full_tlb).1 (demo_loaded false) 63 (by decide)

/-! ### Teardown of a new address space, bounds of a run, bounds of the tag accesses -/

/-- C18 at its failing input.  For an address space straight from `as_create` (no
segment, `as_stackpbase = NULL`) the two segment loops of `as_destroy` run zero times, but
the stack loop runs `DUMBVM_STACKPAGES` times whatever the address space holds and its
first iteration reads `as_stackpbase[0]` through the `NULL` pointer: the kernel panics
instead of returning with the allocator unchanged. -/
theorem as_destroy_new_address_space (fuel : Nat) (cm : CoreMap) (loadelf : Bool) :
    (as_create loadelf).as_npages1 = 0 ∧ (as_create loadelf).as_npages2 = 0 ∧
    (as_create loadelf).as_stackpbase = none ∧
    as_destroy fuel cm (as_create loadelf) = Run.panic :=
  ⟨rfl, rfl, rfl, rfl⟩

/-- C19 at its failing input.  Two frames of RAM at `0x40000` (`end = 0x42000`), right
after `vm_bootstrap`: `getppages(2)` chooses the run of tags `0, 1`, which ends at the last
frame index, and returns `0x41000`; the two pages from there end at `0x43000`, past
`end`. -/
theorem getppages_run_past_end :
    initialized boot2 ∧ boot2.end_ = 0x42000 ∧ boot2.size = 2 ∧
    FreeRun boot2.tags boot2.size 0 2 ∧
    (getppages no_ram boot2 2).2 = 0x41000 ∧
    boot2.start ≤ (getppages no_ram boot2 2).2 ∧
    ¬ ((getppages no_ram boot2 2).2 + 2 * PAGE_SIZE ≤ boot2.end_) := by
  decide

/-- C20 at its failing inputs.  Two frames of RAM right after `vm_bootstrap`.
`cmap_stealmem(3)` finds both frames free, and after counting the second it reads
`tags[2]`, index `size`.  After `getppages(2)` (tags `1, 2`), `free_kpages` on the address
returned clears both tags and then reads `tags[2]`, index `size`, to decide whether to go
on. -/
theorem tag_access_at_size :
    boot2.size = 2 ∧
    cmap_accesses boot2 3 boot2.size 0 = [0, 1, 2] ∧
    (cmap_stealmem boot2 3).2 = 0 ∧
    (∀ i, i < 2 → (getppages no_ram boot2 2).1.tags i = (i : Int) + 1) ∧
    (getppages no_ram boot2 2).1.size = 2 ∧
    free_accesses 1 (getppages no_ram boot2 2).1 (PADDR_TO_KVADDR (getppages no_ram boot2 2).2)
      = [0, 1, 1, 2] := by
  decide

/-! ### Fault handler: the slot that is written -/

/-- Clearing `TLBLO_DIRTY` in `paddr | TLBLO_DIRTY | TLBLO_VALID` leaves
`paddr | TLBLO_VALID` when `paddr` is a page-aligned 32-bit address. -/
theorem entry_lo_eq (paddr : Nat) (seg loadelf : Bool) (h : paddr &&& PAGE_FRAME = paddr) :
    entry_lo paddr seg loadelf
      = if seg && loadelf then paddr ||| TLBLO_VALID else paddr ||| TLBLO_DIRTY ||| TLBLO_VALID := by
  unfold entry_lo
  by_cases c : (seg && loadelf) = true
  · rw [if_pos c, if_pos c]
    obtain ⟨hp, hm⟩ := (aligned_iff paddr).1 h
    unfold WORD at hp
    unfold PAGE_SIZE at hm
    unfold TLBLO_DIRTY TLBLO_VALID WORD
    have e1 : (4294967296 - 1 - 1024 : Nat) = (2 ^ 32 - 1) ^^^ 2 ^ 10 := by decide
    have e2 : (1024 : Nat) = 2 ^ 10 := by decide
    have e3 : (512 : Nat) = 2 ^ 9 := by decide
    have hp10 : paddr.testBit 10 = false := by
      have : paddr = 2 ^ 12 * (paddr / 4096) := by omega
      rw [this, Nat.testBit_mul_pow_two]
      simp
    apply Nat.eq_of_testBit_eq
    intro i
    rw [e1, e2, e3]
    simp only [Nat.testBit_and, Nat.testBit_or, Nat.testBit_xor, Nat.testBit_two_pow_sub_one,
      Nat.testBit_two_pow]
    by_cases h10 : i = 10
    · subst h10; simp [hp10]
    · by_cases h32 : i < 32
      · have : ¬ (10 = i) := fun h => h10 h.symm
        simp [h32, this]
      · have hpi : paddr.testBit i = false := by
          apply Nat.testBit_lt_two_pow
          calc paddr < 4294967296 := hp
            _ = 2 ^ 32 := by norm_num
            _ ≤ 2 ^ i := Nat.pow_le_pow_right (by norm_num) (by omega)
        have h9 : ¬ (9 = i) := by omega
        have h10' : ¬ (10 = i) := fun h => h10 h.symm
        simp [h32, hpi, h9, h10']
  · rw [if_neg c, if_neg c]

/-- C17 (TLB install never fails and touches one slot).  For every TLB state and every
READ or WRITE fault on a page of one of the three regions of a backed address space,
`vm_fault` returns `0`; the TLB it leaves differs from the old one in one slot, which holds
the faulting page and `paddr | TLBLO_VALID`, with `TLBLO_DIRTY` as well unless the page is
in Segment 1 and `loadelf` is set, where `paddr` is the frame the handler computes (region
offset plus first table entry); when some slot below `NUM_TLB` is invalid the slot written
is the lowest invalid one, and when all `NUM_TLB` slots are valid it is the slot the
hardware chooses. -/
theorem vm_fault_one_slot (faulttype : Int) (faultaddress : Nat) (as : addrspace) (tlb : TLB)
    (random : Nat) (hft : faulttype = VM_FAULT_READ ∨ faulttype = VM_FAULT_WRITE)
    (hb : backed as)
    (hin : in_seg1 as (faultaddress &&& PAGE_FRAME) ∨ in_stack (faultaddress &&& PAGE_FRAME) ∨
      in_seg2 as (faultaddress &&& PAGE_FRAME)) :
    ∃ (t : TLB) (slot : Nat) (seg : Bool) (table : Option (List Nat)) (base first : Nat),
      fault_region as (faultaddress &&& PAGE_FRAME) = some (seg, table, base) ∧
      table.bind (fun l => l[0]?) = some first ∧
      vm_fault faulttype faultaddress (some (some as)) tlb random = Run.ret (none, t) ∧
      t slot = (faultaddress &&& PAGE_FRAME,
        if seg && as.loadelf then
          ((faultaddress &&& PAGE_FRAME) - base + first) % WORD ||| TLBLO_VALID
        else ((faultaddress &&& PAGE_FRAME) - base + first) % WORD ||| TLBLO_DIRTY ||| TLBLO_VALID) ∧
      (∀ j, j ≠ slot → t j = tlb j) ∧
      ((∃ j, j < NUM_TLB ∧ (tlb j).2 &&& TLBLO_VALID = 0) →
        slot < NUM_TLB ∧ (tlb slot).2 &&& TLBLO_VALID = 0 ∧
        ∀ j, j < slot → (tlb j).2 &&& TLBLO_VALID ≠ 0) ∧
      ((∀ j, j < NUM_TLB → (tlb j).2 &&& TLBLO_VALID ≠ 0) → slot = random) := by
  obtain ⟨table, base, first, hreg, hfirst, hal⟩ :=
    fault_region_backed as (faultaddress &&& PAGE_FRAME) hb (page_mask_aligned _).2 hin
  have hcl := vm_fault_classify faulttype faultaddress as tlb random hft hb
  rw [hreg] at hcl
  simp only at hcl
  rw [hfirst] at hcl
  simp only at hcl
  rw [if_pos hal, entry_lo_eq _ _ _ hal] at hcl
  obtain ⟨hs, hn⟩ := tlb_fill_spec tlb (faultaddress &&& PAGE_FRAME)
    (if decide (in_seg1 as (faultaddress &&& PAGE_FRAME)) && as.loadelf then
        ((faultaddress &&& PAGE_FRAME) - base + first) % WORD ||| TLBLO_VALID
      else ((faultaddress &&& PAGE_FRAME) - base + first) % WORD ||| TLBLO_DIRTY ||| TLBLO_VALID)
    NUM_TLB 0
  cases hfill : tlb_fill tlb (faultaddress &&& PAGE_FRAME)
    (if decide (in_seg1 as (faultaddress &&& PAGE_FRAME)) && as.loadelf then
        ((faultaddress &&& PAGE_FRAME) - base + first) % WORD ||| TLBLO_VALID
      else ((faultaddress &&& PAGE_FRAME) - base + first) % WORD ||| TLBLO_DIRTY ||| TLBLO_VALID)
    NUM_TLB 0 with
  | some t =>
    rw [hfill] at hcl
    obtain ⟨j, a1, a2, a3, a4, a5⟩ := hs t hfill
    refine ⟨t, j, _, table, base, first, hreg, hfirst, hcl, ?_, ?_, ?_, ?_⟩
    · rw [a5, Function.update_same]
    · intro j' hj'
      rw [a5, Function.update_noteq hj']
    · intro _
      exact ⟨by omega, a3, fun j' hj' => a4 j' (by omega) hj'⟩
    · intro hall
      exact absurd a3 (hall j (by omega))
  | none =>
    rw [hfill] at hcl
    refine ⟨_, random, _, table, base, first, hreg, hfirst, hcl, ?_, ?_, ?_, ?_⟩
    · rw [Function.update_same]
    · intro j' hj'
      rw [Function.update_noteq hj']
    · rintro ⟨j, hj, hinv⟩
      exact absurd hinv (hn hfill j (by omega) (by omega))
    · intro _
      rfl

/-- C17, for a WRITE fault at `0x400abc` on the address space of the scenario with an empty
TLB. -/
theorem vm_fault_one_slot_witness :
    ∃ (t : TLB) (slot : Nat) (seg : Bool) (table : Option (List Nat)) (base first : Nat),
      fault_region (demo_loaded false) (0x400abc &&& PAGE_FRAME) = some (seg, table, base) ∧
      table.bind (fun l => l[0]?) = some first ∧
      vm_fault VM_FAULT_WRITE 0x400abc (some (some (demo_loaded false))) empty_tlb 9
        = Run.ret (none, t) ∧
      t slot = (0x400abc &&& PAGE_FRAME,
        if seg && (demo_loaded false).loadelf then
          ((0x400abc &&& PAGE_FRAME) - base + first) % WORD ||| TLBLO_VALID
        else ((0x400abc &&& PAGE_FRAME) - base + first) % WORD ||| TLBLO_DIRTY ||| TLBLO_VALID) ∧
      (∀ j, j ≠ slot → t j = empty_tlb j) ∧
      ((∃ j, j < NUM_TLB ∧ (empty_tlb j).2 &&& TLBLO_VALID = 0) →
        slot < NUM_TLB ∧ (empty_tlb slot).2 &&& TLBLO_VALID = 0 ∧
        ∀ j, j < slot → (empty_tlb j).2 &&& TLBLO_VALID ≠ 0) ∧
      ((∀ j, j < NUM_TLB → (empty_tlb j).2 &&& TLBLO_VALID ≠ 0) → slot = 9) :=
  vm_fault_one_slot VM_FAULT_WRITE 0x400abc (demo_loaded false) empty_tlb 9 (Or.inr rfl)
    (by decide) (by decide)

/-! ### Teardown after a failed or a successful load -/

/-- C14 at its failing input.  The allocator `full20` has one free frame (tag `15`); the
source has a 2-page Segment 1, so the second `getppages(1)` of `as_prepare_load` fails.
`as_destroy` then calls `free_kpages` on all `2 + 1 + 12` table entries of the
destination, of which only the first was assigned.  When the unassigned entries hold
`0x41000` (the first frame of the source) `as_copy` returns `ENOMEM` with tag `0`, which
belongs to the source, cleared; when they hold `0` the `KASSERT` of `free_kpages` fails
and the kernel panics. -/
theorem as_copy_failure_frees_unassigned :
    initialized full20 ∧ loaded full20 (demo_loaded false) ∧ full20.tags 0 = 1 ∧
    (as_copy no_ram (heap 0x41000) 2 false full20 (demo_loaded false)).value.map
        (fun r => (r.1, r.2.1.tags 0, r.2.1.tags 15, r.2.2))
      = some (some Errno.ENOMEM, 0, 0, none) ∧
    (as_copy no_ram (heap 0) 2 false full20 (demo_loaded false)).crashed = true := by
  refine ⟨by decide, by decide, by decide, ?_, ?_⟩
  · decide!
  · decide!

/-! ### Frames whose words are tags -/

/-- The lowest free frame is what `getppages(1)` hands out. -/
theorem getppages_lowest (ram_stealmem : CoreMap → Nat → CoreMap × Nat) (cm : CoreMap)
    (hst : initialized cm) (a : Nat) (ha : a < cm.size) (hfree : cm.tags a = 0)
    (hbusy : ∀ j, j < a → cm.tags j ≠ 0) :
    getppages ram_stealmem cm 1
      = ({ cm with tags := tagged cm.tags a 1 }, cm.start + (a + 1) * PAGE_SIZE) := by
  have hf : FreeRun cm.tags cm.size a 1 :=
    ⟨by omega, fun i hi => by
      have : i = 0 := by omega
      subst this
      exact hfree⟩
  have hl : ∀ s', s' < a → ¬ FreeRun cm.tags cm.size s' 1 :=
    fun s' hs' h => hbusy s' hs' (h.2 0 (by omega))
  unfold getppages
  rw [if_pos hst.1, cmap_stealmem_chosen cm 1 a (le_refl 1) hf hl,
    (run_address cm hst a 1 (le_refl 1) (by omega)).1]

/-- Word index of the frame of tag `a`. -/
theorem word_index_frame (cm : CoreMap) (hst : initialized cm) (a : Nat) (ha : a < cm.size) :
    word_index cm.start (cm.start + (a + 1) * PAGE_SIZE) = 1024 * (a + 1) := by
  obtain ⟨-, h1, h2, h3⟩ := hst
  unfold word_index
  unfold PAGE_SIZE WORD at *
  have e : (cm.start + (a + 1) * 4096 + 4294967296 - cm.start) = (a + 1) * 4096 + 4294967296 := by
    omega
  rw [e]
  omega

/-- A loop of `as_prepare_load` on a block whose first `k` entries from `i` on are to be
filled, when the tags `a, …, a+k-1` are free and every lower tag is in use: the loop takes
exactly these frames, in order, and zero-fills them. -/
theorem load_loop_block (ram_stealmem : CoreMap → Nat → CoreMap × Nat) :
    ∀ (k a i : Nat) (cm : CoreMap) (l : List Nat), initialized cm → a + k ≤ cm.size →
      a + k ≤ 1024 * (a + 1) → (∀ j, j < a → cm.tags j ≠ 0) →
      (∀ j, a ≤ j → j < a + k → cm.tags j = 0) → i + k ≤ l.length →
      load_loop ram_stealmem k i cm (some l)
        = Run.ret (none, after_load cm a k, some (store_frames cm.start k a i l)) := by
  intro k
  induction k with
  | zero =>
    intro a i cm l _ _ _ _ _ _
    have e : after_load cm a 0 = cm := by
      unfold after_load
      cases cm
      simp only [CoreMap.mk.injEq, true_and]
      funext j
      rw [if_neg (by omega), if_neg (by omega)]
    rw [load_loop, e, store_frames]
  | succ k ih =>
    intro a i cm l hst hfit hword hbusy hfree hlen
    have hw := word_index_frame cm hst a (by omega)
    have haddr := (run_address cm hst a 1 (le_refl 1) (by omega)).2.2
    unfold load_loop
    simp only
    rw [getppages_lowest ram_stealmem cm hst a (by omega) (hfree a (le_refl a) (by omega)) hbusy]
    simp only
    rw [if_neg haddr, if_pos (by omega)]
    have hb : ∀ j, j < a + 1 →
        (as_zero_region { cm with tags := tagged cm.tags a 1 }
          (cm.start + (a + 1) * PAGE_SIZE) 1).tags j ≠ 0 := by
      intro j hj
      unfold as_zero_region
      simp only [hw, tagged]
      rw [if_neg (by omega)]
      by_cases h4 : a ≤ j ∧ j < a + 1
      · rw [if_pos h4]
        have : j - a + 1 = 1 := by omega
        rw [this]; decide
      · rw [if_neg h4]
        exact hbusy j (by omega)
    have hf : ∀ j, a + 1 ≤ j → j < a + 1 + k →
        (as_zero_region { cm with tags := tagged cm.tags a 1 }
          (cm.start + (a + 1) * PAGE_SIZE) 1).tags j = 0 := by
      intro j hj1 hj2
      unfold as_zero_region
      simp only [hw, tagged]
      by_cases h3 : 1024 * (a + 1) ≤ j ∧ j < 1024 * (a + 1) + 1 * PAGE_SIZE % WORD / 4
      · rw [if_pos h3]
      · rw [if_neg h3, if_neg (by omega)]
        exact hfree j (by omega) (by omega)
    have e : after_load
        (as_zero_region { cm with tags := tagged cm.tags a 1 }
          (cm.start + (a + 1) * PAGE_SIZE) 1) (a + 1) k = after_load cm a (k + 1) := by
      unfold after_load as_zero_region
      simp only [CoreMap.mk.injEq, true_and]
      funext j
      simp only [hw, tagged]
      have hq : 1 * PAGE_SIZE % WORD / 4 = 1024 := by decide
      rw [hq]
      by_cases h1 : a + 1 ≤ j ∧ j < a + 1 + k
      · rw [if_pos h1, if_pos (by omega)]
      · rw [if_neg h1]
        by_cases h2 : 1024 * (a + 1 + 1) ≤ j ∧ j < 1024 * (a + 1 + 1 + k)
        · rw [if_pos h2, if_neg (by omega), if_pos (by omega)]
        · rw [if_neg h2]
          by_cases h3 : 1024 * (a + 1) ≤ j ∧ j < 1024 * (a + 1) + 1024
          · rw [if_pos h3, if_neg (by omega), if_pos (by omega)]
          · rw [if_neg h3]
            by_cases h4 : a ≤ j ∧ j < a + 1
            · rw [if_pos h4, if_pos (by omega)]
              have : j - a + 1 = 1 := by omega
              rw [this]; rfl
            · rw [if_neg h4, if_neg (by omega), if_neg (by omega)]
    have ih' := ih (a + 1) (i + 1)
      (as_zero_region { cm with tags := tagged cm.tags a 1 } (cm.start + (a + 1) * PAGE_SIZE) 1)
      (l.set i (cm.start + (a + 1) * PAGE_SIZE)) hst (by
        show a + 1 + k ≤ cm.size
        omega) (by omega) hb hf (by rw [List.length_set]; omega)
    rw [ih', e]
    rfl

/-- The result of `as_prepare_load` when its three loops succeed. -/
theorem as_prepare_load_ret (ram_stealmem : CoreMap → Nat → CoreMap × Nat)
    (kmalloc : Nat → Option (List Nat)) (cm : CoreMap) (as : addrspace)
    (cm1 cm2 cm3 : CoreMap) (t1 t2 t3 : Option (List Nat)) (blk : List Nat)
    (h1 : load_loop ram_stealmem as.as_npages1 0 cm as.as_pbase1 = Run.ret (none, cm1, t1))
    (h2 : load_loop ram_stealmem as.as_npages2 0 cm1 as.as_pbase2 = Run.ret (none, cm2, t2))
    (hk : kmalloc DUMBVM_STACKPAGES = some blk)
    (h3 : load_loop ram_stealmem DUMBVM_STACKPAGES 0 cm2 (some blk) = Run.ret (none, cm3, t3)) :
    as_prepare_load ram_stealmem kmalloc cm as
      = Run.ret (none, cm3, { as with as_pbase1 := t1, as_pbase2 := t2, as_stackpbase := t3 }) := by
  unfold as_prepare_load
  rw [h1]
  simp only
  rw [h2]
  simp only
  rw [hk]
  simp only
  rw [h3]

/-- The result of `as_copy` when `as_prepare_load` and the three copy loops succeed. -/
theorem as_copy_ret (ram_stealmem : CoreMap → Nat → CoreMap × Nat)
    (kmalloc : Nat → Option (List Nat)) (fuel : Nat) (loadelf : Bool) (cm : CoreMap)
    (old : addrspace) (cm1 cm2 cm3 cm4 : CoreMap) (new1 : addrspace)
    (hp : as_prepare_load ram_stealmem kmalloc cm
        { as_create loadelf with
          as_vbase1 := old.as_vbase1, as_npages1 := old.as_npages1,
          as_vbase2 := old.as_vbase2, as_npages2 := old.as_npages2,
          as_pbase1 := kmalloc old.as_npages1, as_pbase2 := kmalloc old.as_npages2,
          as_stackpbase := kmalloc DUMBVM_STACKPAGES } = Run.ret (none, cm1, new1))
    (c1 : copy_loop old.as_npages1 0 cm1 new1.as_pbase1 old.as_pbase1 = Run.ret cm2)
    (c2 : copy_loop old.as_npages2 0 cm2 new1.as_pbase2 old.as_pbase2 = Run.ret cm3)
    (c3 : copy_loop DUMBVM_STACKPAGES 0 cm3 new1.as_stackpbase old.as_stackpbase = Run.ret cm4) :
    as_copy ram_stealmem kmalloc fuel loadelf cm old = Run.ret (none, cm4, some new1) := by
  unfold as_copy
  simp only
  rw [hp]
  simp only
  rw [c1]
  simp only
  rw [c2]
  simp only
  rw [c3]

theorem copy_loop_shift : ∀ (k i : Nat) (cm : CoreMap) (d s : Nat) (dl sl : List Nat),
    copy_loop k (i + 1) cm (some (d :: dl)) (some (s :: sl))
      = copy_loop k i cm (some dl) (some sl) := by
  intro k
  induction k with
  | zero => intro i cm d s dl sl; rfl
  | succ k ih =>
    intro i cm d s dl sl
    unfold copy_loop
    simp only [Option.bind, List.getElem?_cons_succ]
    cases dl[i]? with
    | none => rfl
    | some a =>
      cases sl[i]? with
      | none => rfl
      | some b => exact ih (i + 1) _ d s dl sl

/-- A loop of `as_copy` over the first `k` entries of two allocated tables. -/
theorem copy_loop_pages : ∀ (k : Nat) (cm : CoreMap) (dl sl : List Nat), k ≤ dl.length →
    k ≤ sl.length →
    copy_loop k 0 cm (some dl) (some sl) = Run.ret (copy_pages cm (dl.take k) (sl.take k)) := by
  intro k
  induction k with
  | zero =>
    intro cm dl sl _ _
    rw [copy_loop, List.take_zero, List.take_zero]
    rfl
  | succ k ih =>
    intro cm dl sl h1 h2
    cases dl with
    | nil => simp at h1
    | cons d dl =>
      cases sl with
      | nil => simp at h2
      | cons s sl =>
        simp only [List.length_cons, Nat.add_le_add_iff_right] at h1 h2
        unfold copy_loop
        simp only [Option.bind, List.getElem?_cons_zero]
        rw [copy_loop_shift, ih _ dl sl h1 h2, List.take_succ_cons, List.take_succ_cons,
          copy_pages]

/-- C13 at its failing input.  RAM of 1100 frames: the tag array is longer than a page, so
its words `1024, …, 1099` are also the first words of the frame of tag `0` (`0x41000`).
Tag `0` is the lowest free tag and the source owns the frames of tags `1024, …, 1037`, whose
words hold `7`.  `as_copy` takes `0x41000` first and zero-fills it, which clears the tags of
the source; the next thirteen `getppages(1)` then return frames of the source and zero-fill
them.  `as_copy` returns `0` with a copy whose frames, but for the first, are frames of the
source (its Segment 2 page is the Segment 1 page of the source), and the first word of the
first page of the source is `0` afterwards. -/
theorem as_copy_takes_frames_of_source :
    initialized crowded1100 ∧ loaded crowded1100 (far_loaded false) ∧
    word_index crowded1100.start 0x41000 = 1024 ∧
    crowded1100.tags (word_index crowded1100.start 0x441000) = 7 ∧
    (as_copy no_ram (heap 0) 1 false crowded1100 (far_loaded false)).value.map
        (fun r => (r.1, r.2.2, r.2.1.tags (word_index crowded1100.start 0x441000)))
      = some (none, some (far_copy false), 0) ∧
    (far_copy false).as_pbase2 = (far_loaded false).as_pbase1 := by
  have hinit : initialized crowded1100 := by decide
  refine ⟨hinit, by decide!, by decide, by decide, ?_, by decide⟩
  have h1 := load_loop_block no_ram 1 0 0 crowded1100 (List.replicate 1 0) hinit (by decide)
    (by decide) (fun j hj => absurd hj (Nat.not_lt_zero j))
    (fun j hj1 hj2 => by
      have : j = 0 := by omega
      subst this
      decide) (by decide)
  have h2 := load_loop_block no_ram 1 1024 0 (after_load crowded1100 0 1) (List.replicate 1 0)
    (by decide) (by decide) (by decide) (by decide!) (by decide!) (by decide)
  have h3 := load_loop_block no_ram 12 1025 0 (after_load (after_load crowded1100 0 1) 1024 1)
    (List.replicate 12 0) (by decide) (by decide) (by decide) (by decide!) (by decide!)
    (by decide)
  have t1 : store_frames crowded1100.start 1 0 0 (List.replicate 1 0) = [0x41000] := by decide
  have t2 : store_frames (after_load crowded1100 0 1).start 1 1024 0 (List.replicate 1 0)
      = [0x441000] := by decide
  have t3 : store_frames (after_load (after_load crowded1100 0 1) 1024 1).start 12 1025 0
        (List.replicate 12 0)
      = [0x442000, 0x443000, 0x444000, 0x445000, 0x446000, 0x447000, 0x448000, 0x449000,
          0x44a000, 0x44b000, 0x44c000, 0x44d000] := by decide
  rw [t1] at h1
  rw [t2] at h2
  rw [t3] at h3
  have key := as_copy_ret no_ram (heap 0) 1 false crowded1100 (far_loaded false) _ _ _ _ _
    (as_prepare_load_ret no_ram (heap 0) crowded1100 _ _ _ _ _ _ _ _ h1 h2 rfl h3)
    (copy_loop_pages 1 _ [0x41000] [0x441000] (by decide) (by decide))
    (copy_loop_pages 1 _ [0x441000] [0x442000] (by decide) (by decide))
    (copy_loop_pages 12 _
      [0x442000, 0x443000, 0x444000, 0x445000, 0x446000, 0x447000, 0x448000, 0x449000,
        0x44a000, 0x44b000, 0x44c000, 0x44d000]
      [0x443000, 0x444000, 0x445000, 0x446000, 0x447000, 0x448000, 0x449000, 0x44a000,
        0x44b000, 0x44c000, 0x44d000, 0x44e000] (by decide) (by decide))
  rw [key]
  decide!

/-- C15 at its failing input.  RAM of 1100 frames: the tag array is longer than a page, so
its words `1024, …, 1099` are also the first words of the frame of tag `0` (`0x41000`).
One run of 16 frames is outstanding at tags `1024, …, 1039`.  `as_prepare_load` of the
address space of the scenario succeeds with the frames of tags `0, …, 14`; zero-filling the
first of them clears the tags of the outstanding run.  `as_destroy` then returns with tags
`0, …, 14` cleared, and the tags `1024` and `1039`, which were `1` and `16` before
`as_prepare_load`, are `0`. -/
theorem as_destroy_after_load_tags_lost :
    initialized shared1100 ∧ Layout shared1100 [(0x441000, 16)] ∧
    shared1100.tags 1024 = 1 ∧ shared1100.tags 1039 = 16 ∧
    (as_prepare_load no_ram (heap 0) shared1100 (demo_as false)).value.map
        (fun r => (r.1, r.2.2, r.2.1.tags 1024, r.2.1.tags 1039))
      = some (none, demo_loaded false, 0, 0) ∧
    (∀ i, i < 15 → (loaded_cm shared1100 false).tags i = 1) ∧
    (as_destroy 1 (loaded_cm shared1100 false) (demo_loaded false)).value.map
        (fun cm => (cm.tags 0, cm.tags 14, cm.tags 1024, cm.tags 1039))
      = some (0, 0, 0, 0) := by
  refine ⟨by decide, ?_, by decide, by decide, by decide!, by decide!, by decide!⟩
  unfold Layout
  exact ⟨by decide!, List.pairwise_singleton _ _, by decide!⟩

end DumbVM
